import Mathlib

/-!
# MandelbrotViewer: `mandelbrot_render.c`

A shallow embedding of the renderer and the properties of its colour quantizer,
escape-time loop, palette table and row streamer.

Conventions of the embedding.

* C `int` values are `Int`; a result of `int` / `int64_t` / `uint8_t` / `size_t`
  arithmetic is reduced explicitly (`wrap_int`, `wrap_int64`, `to_uint8`,
  `to_size_t`), so that "nothing is lost" is a theorem and not an assumption.
* `double` arithmetic is a parameter (`DoubleOps`): the loop and the mapper are
  written once over an arbitrary carrier with `+ - * /`, a comparison and the
  conversion from `int`.  `exactOps` instantiates it with the rationals.
* A byte is a `Char`; a buffer is a `List Char`.
* `write(2)` is an oracle giving the return value of the k-th call from the
  number of bytes requested.
* `malloc` is taken to succeed: the embedding starts after the allocation checks.
-/

namespace Mandelbrot

/-! ## Machine integers -/

/-- The largest `int` (32 bit). -/
def INT_MAX : Int := 2147483647

/-- Reduction of a mathematical integer to a 32-bit two's complement `int`. -/
def wrap_int (v : Int) : Int := (v + 2147483648) % 4294967296 - 2147483648

/-- Reduction of a mathematical integer to a 64-bit two's complement `int64_t`. -/
def wrap_int64 (v : Int) : Int :=
  (v + 9223372036854775808) % 18446744073709551616 - 9223372036854775808

/-- Conversion to `uint8_t`: reduction modulo 256. -/
def to_uint8 (v : Int) : Nat := (v % 256).toNat

/-- Conversion to a 64-bit `size_t`: reduction modulo 2^64. -/
def to_size_t (v : Int) : Nat := (v % 18446744073709551616).toNat

/-! ## Colour quantizer -/

/-- Source: `iteration_to_color` (lines 56-63).  `(int64_t)iter * 200 / max_iter`
is an `int64_t` product and a truncating division, narrowed to `int`; `17 + idx`
is an `int` sum narrowed to `uint8_t`.  A zero divisor cannot occur after the
validation (`max_iter > 0`); `Int.tdiv` gives 0 there. -/
def iteration_to_color (iter max_iter : Int) : Nat :=
  if iter ≥ max_iter then
    16
  else
    let idx : Int := wrap_int (wrap_int64 (Int.tdiv (wrap_int64 (wrap_int64 iter * 200)) max_iter))
    to_uint8 (wrap_int (17 + idx))

/-! ## Floating-point arithmetic as a parameter -/

/-- The operations on `double` the program uses.  Nothing is assumed about them:
rounding, infinities and NaN are whatever the carrier makes of them. -/
structure DoubleOps where
  /-- Carrier of the `double` values. -/
  F : Type
  /-- The literal `0.0`. -/
  zero : F
  /-- The literal `2.0`. -/
  two : F
  /-- The literal `4.0`. -/
  four : F
  /-- The conversion `(double)n` of an `int`. -/
  ofInt : Int → F
  /-- The sum `a + b`. -/
  add : F → F → F
  /-- The difference `a - b`. -/
  sub : F → F → F
  /-- The product `a * b`. -/
  mul : F → F → F
  /-- The quotient `a / b`. -/
  div : F → F → F
  /-- The comparison `a <= b`. -/
  le : F → F → Bool

/-- Exact arithmetic: the rationals (division by zero gives 0). -/
def exactOps : DoubleOps where
  F := ℚ
  zero := 0
  two := 2
  four := 4
  ofInt := fun n => (n : ℚ)
  add := fun a b => a + b
  sub := fun a b => a - b
  mul := fun a b => a * b
  div := fun a b => a / b
  le := fun a b => decide (a ≤ b)

/-! ## Escape-time loop (lines 128-142) -/

/-- The local variables of the inner loop. -/
structure LoopState (F : Type) where
  /-- Real part. -/
  x : F
  /-- Imaginary part. -/
  y : F
  /-- Square of the real part. -/
  x2 : F
  /-- Square of the imaginary part. -/
  y2 : F
  /-- Number of steps taken. -/
  iter : Int

/-- Lines 128-132: `x = y = x2 = y2 = 0.0`, `iter = 0`. -/
def loop_init (A : DoubleOps) : LoopState A.F :=
  { x := A.zero, y := A.zero, x2 := A.zero, y2 := A.zero, iter := 0 }

/-- Line 136: `(x2 + y2 <= 4.0) && (iter < max_iter)`. -/
def loop_cond (A : DoubleOps) (max_iter : Int) (s : LoopState A.F) : Bool :=
  A.le (A.add s.x2 s.y2) A.four && decide (s.iter < max_iter)

/-- Lines 137-141: one pass through the loop body. -/
def loop_body (A : DoubleOps) (x0 y0 : A.F) (s : LoopState A.F) : LoopState A.F :=
  let y := A.add (A.mul (A.mul A.two s.x) s.y) y0
  let x := A.add (A.sub s.x2 s.y2) x0
  { x := x, y := y, x2 := A.mul x x, y2 := A.mul y y, iter := wrap_int (s.iter + 1) }

/-- The `while` loop of line 136 run for at most `fuel` passes through its body:
`some s` when the condition is found false after at most `fuel` passes (`s` is
the state on exit), `none` when `fuel` passes do not suffice. -/
def escape_loop (A : DoubleOps) (x0 y0 : A.F) (max_iter : Int) :
    Nat → LoopState A.F → Option (LoopState A.F)
  | 0, s => if loop_cond A max_iter s then none else some s
  | fuel + 1, s =>
    if loop_cond A max_iter s then
      escape_loop A x0 y0 max_iter fuel (loop_body A x0 y0 s)
    else some s

/-- The value of `iter` at line 144, the loop being given `max_iter` passes. -/
def escape_time (A : DoubleOps) (x0 y0 : A.F) (max_iter : Int) : Option Int :=
  (escape_loop A x0 y0 max_iter max_iter.toNat (loop_init A)).map (fun s => s.iter)

/-! ## Coordinate mapper (lines 93-117) -/

/-- The two coordinate tables. -/
structure CoordTables (F : Type) where
  /-- Column to real part. -/
  xs : List F
  /-- Row to imaginary part. -/
  ys : List F

/-- Lines 95-99 and 112-117. -/
def coordinate_tables (A : DoubleOps) (width height : Int) (center_x center_y zoom : A.F) :
    CoordTables A.F :=
  let aspect := A.div (A.ofInt height) (A.ofInt width)
  let xmin := A.sub center_x zoom
  let ymin := A.sub center_y (A.mul zoom aspect)
  let dx := A.div (A.mul A.two zoom) (A.ofInt width)
  let dy := A.div (A.mul (A.mul A.two zoom) aspect) (A.ofInt height)
  { xs := (List.range width.toNat).map (fun px => A.add xmin (A.mul dx (A.ofInt px)))
    ys := (List.range height.toNat).map (fun py => A.add ymin (A.mul dy (A.ofInt py))) }

/-! ## Computation of the colour grid (lines 119-146) -/

/-- Lines 124: `(size_t)py * (size_t)width`. -/
def row_offset (width : Int) (py : Nat) : Nat :=
  to_size_t ((to_size_t py : Int) * (to_size_t width : Int))

/-- Lines 126-145 for one pixel: the loop, the quantizer and the store into
`colors[row_offset + (size_t)px]`. -/
def compute_pixel (A : DoubleOps) (xs : List A.F) (y0 : A.F) (width max_iter : Int) (py : Nat)
    (colors : List Nat) (px : Nat) : Option (List Nat) :=
  (escape_time A (xs.getD px A.zero) y0 max_iter).map (fun iter =>
    colors.set (to_size_t ((row_offset width py : Int) + (to_size_t px : Int)))
      (iteration_to_color iter max_iter))

/-- Lines 122-146 for one row `py`. -/
def compute_row (A : DoubleOps) (xs ys : List A.F) (width max_iter : Int)
    (colors : List Nat) (py : Nat) : Option (List Nat) :=
  (List.range width.toNat).foldlM (compute_pixel A xs (ys.getD py A.zero) width max_iter py) colors

/-- The rows `rows`, one after the other in the order of the list. -/
def compute_rows (A : DoubleOps) (xs ys : List A.F) (width max_iter : Int)
    (rows : List Nat) (colors : List Nat) : Option (List Nat) :=
  rows.foldlM (compute_row A xs ys width max_iter) colors

/-- Lines 103 and 121-146: the grid of `width * height` bytes, filled row by row
in increasing order (the order one thread gives).  The fresh buffer is modelled
as zeroes; no cell is read before it is written. -/
def compute_colors (A : DoubleOps) (xs ys : List A.F) (width height max_iter : Int) :
    Option (List Nat) :=
  compute_rows A xs ys width max_iter (List.range height.toNat)
    (List.replicate (to_size_t ((to_size_t width : Int) * (to_size_t height : Int))) 0)

/-! ## Palette table (lines 14-32) -/

/-- The size of one entry of `PALETTE`. -/
def MAX_PALETTE_LEN : Nat := 20

/-- The byte 0. -/
def NUL : Char := Char.ofNat 0

/-- The byte 27. -/
def ESC : Char := Char.ofNat 27

/-- The byte 10, the line terminator. -/
def LF : Char := Char.ofNat 10

/-- The text the format `"\033[48;5;%dm \033[0m"` gives for `i >= 0`. -/
def palette_format (i : Nat) : List Char :=
  [ESC, '[', '4', '8', ';', '5', ';'] ++ Nat.toDigits 10 i ++ ['m', ' ', ESC, '[', '0', 'm']

/-- The call `snprintf(buf, size, ...)` when the formatted text is `s`: at most
`size - 1` bytes of `s` then a NUL are stored at the start of `buf`; the value
returned is the length of `s`. -/
def snprintf (buf : List Char) (size : Nat) (s : List Char) : List Char × Int :=
  if size = 0 then (buf, (s.length : Int))
  else
    let k := min s.length (size - 1)
    (s.take k ++ [NUL] ++ buf.drop (k + 1), (s.length : Int))

/-- The two tables `PALETTE` and `PALETTE_LEN`. -/
structure PaletteTable where
  /-- The 256 buffers of `MAX_PALETTE_LEN` bytes. -/
  PALETTE : List (List Char)
  /-- The 256 lengths. -/
  PALETTE_LEN : List Nat
  /-- The local `max_len` of `init_palette`. -/
  max_len : Nat
deriving DecidableEq

/-- The tables before `init_palette`: static storage, all zero. -/
def palette_zero : PaletteTable :=
  { PALETTE := List.replicate 256 (List.replicate MAX_PALETTE_LEN NUL)
    PALETTE_LEN := List.replicate 256 0
    max_len := 0 }

/-- Lines 21-29: the body of the loop of `init_palette` for one `i`. -/
def init_palette_step (P : PaletteTable) (i : Nat) : PaletteTable :=
  let r := snprintf (P.PALETTE.getD i []) MAX_PALETTE_LEN (palette_format i)
  let r : List Char × Int :=
    if r.2 < 0 ∨ r.2 ≥ (MAX_PALETTE_LEN : Int) then
      (r.1.set (MAX_PALETTE_LEN - 1) NUL, (MAX_PALETTE_LEN : Int) - 1)
    else r
  { PALETTE := P.PALETTE.set i r.1
    PALETTE_LEN := P.PALETTE_LEN.set i (to_uint8 r.2)
    max_len := if to_size_t r.2 > P.max_len then to_size_t r.2 else P.max_len }

/-- Source: `init_palette` (lines 18-32); the value returned is the field `max_len`. -/
def init_palette : PaletteTable :=
  (List.range 256).foldl init_palette_step palette_zero

/-! ## Row streamer (lines 159-179) -/

/-- What the output stream has seen. -/
structure Stream where
  /-- The buffers handed to `write`, one per call, in order. -/
  calls : List (List Char)
  /-- The bytes the stream accepted. -/
  out : List Char

/-- Lines 161-169: the contents of `row_buf[0 .. p)` when the row is complete. -/
def build_row (P : PaletteTable) (colors : List Nat) (width : Int) (py : Nat) : List Char :=
  (List.range width.toNat).foldl (fun (p : List Char) (px : Nat) =>
      let color := colors.getD (to_size_t ((row_offset width py : Int) + (to_size_t px : Int))) 0
      let len := P.PALETTE_LEN.getD color 0
      p ++ (P.PALETTE.getD color []).take len) []
    ++ [LF]

/-- Lines 160-179 for the rows `rows`: each row is built and handed to `write`;
`write k n` is what the k-th call returns when asked for `n` bytes.  A return
value `r >= 0` means the first `r` bytes were accepted.  The second component
is the exit code: 1 on the path of line 177, 0 when the loop ends. -/
def emit_rows (P : PaletteTable) (colors : List Nat) (width : Int) (write : Nat → Nat → Int) :
    List Nat → Stream → Stream × Nat
  | [], st => (st, 0)
  | py :: rest, st =>
    let row_buf := build_row P colors width py
    let r := write st.calls.length row_buf.length
    let st1 : Stream := { calls := st.calls ++ [row_buf], out := st.out ++ row_buf.take r.toNat }
    if r < 0 then (st1, 1) else emit_rows P colors width write rest st1

/-- Lines 93-186 of `main`: everything after the validation of the arguments.
`none` only if an escape-time loop does not end within `max_iter` passes. -/
def render (A : DoubleOps) (width height max_iter : Int) (center_x center_y zoom : A.F)
    (write : Nat → Nat → Int) : Option (Stream × Nat) :=
  let t := coordinate_tables A width height center_x center_y zoom
  (compute_colors A t.xs t.ys width height max_iter).map (fun colors =>
    emit_rows init_palette colors width write (List.range height.toNat) { calls := [], out := [] })

/-! ## Validation and narrowing of the arguments (lines 84-91) -/

/-- Lines 84-91: the test on the parsed `long` values and on `zoom`, then the
casts to `int`.  `none` is the path of line 86 (`return 1`).  A `long` has 64
bits; the cast of a value that does not fit an `int` keeps its low 32 bits. -/
def validate_args (A : DoubleOps) (width_l height_l max_iter_l : Int) (zoom : A.F) :
    Option (Int × Int × Int) :=
  if width_l ≤ 0 ∨ height_l ≤ 0 ∨ max_iter_l ≤ 0 ∨ A.le zoom A.zero = true then none
  else some (wrap_int width_l, wrap_int height_l, wrap_int max_iter_l)

/-- Lines 84-186 of `main`: the run from the parsed arguments on. -/
def main_parsed (A : DoubleOps) (width_l height_l max_iter_l : Int)
    (center_x center_y zoom : A.F) (write : Nat → Nat → Int) : Option (Stream × Nat) :=
  match validate_args A width_l height_l max_iter_l zoom with
  | none => some ({ calls := [], out := [] }, 1)
  | some (width, height, max_iter) => render A width height max_iter center_x center_y zoom write

/-! ## The derived values of the viewport (lines 95-99) -/

/-- The five locals of lines 95-99. -/
structure Viewport (F : Type) where
  /-- The ratio `height / width`. -/
  aspect : F
  /-- Real part of the left column. -/
  xmin : F
  /-- Imaginary part of the top row. -/
  ymin : F
  /-- Step between columns. -/
  dx : F
  /-- Step between rows. -/
  dy : F

/-- Lines 95-99. -/
def viewport (A : DoubleOps) (width height : Int) (center_x center_y zoom : A.F) :
    Viewport A.F :=
  let aspect := A.div (A.ofInt height) (A.ofInt width)
  { aspect := aspect
    xmin := A.sub center_x zoom
    ymin := A.sub center_y (A.mul zoom aspect)
    dx := A.div (A.mul A.two zoom) (A.ofInt width)
    dy := A.div (A.mul (A.mul A.two zoom) aspect) (A.ofInt height) }

/-! ## The stores of the computation phase and the row buffer -/

/-- Line 144: the index `row_offset + (size_t)px` of the cell a pixel is stored in. -/
def cell_index (width : Int) (py px : Nat) : Nat :=
  to_size_t ((row_offset width py : Int) + (to_size_t px : Int))

/-- The indices line 144 stores into during the rows `rows`, in the order of
the stores. -/
def store_indices (width : Int) (rows : List Nat) : List Nat :=
  rows.flatMap (fun py => (List.range width.toNat).map (fun px => cell_index width py px))

/-- Line 103: the number of cells `(size_t)width * (size_t)height` of `colors`. -/
def grid_size (width height : Int) : Nat :=
  to_size_t ((to_size_t width : Int) * (to_size_t height : Int))

/-- Line 149: `row_buf_cap = (size_t)width * max_palette_len + 1`. -/
def row_buf_cap (width : Int) : Nat :=
  to_size_t ((to_size_t ((to_size_t width : Int) * (init_palette.max_len : Int)) : Int) + 1)

/-- Lines 165-167 for one row: the values of `len` copied, pixel by pixel. -/
def row_copy_lengths (P : PaletteTable) (colors : List Nat) (width : Int) (py : Nat) : List Nat :=
  (List.range width.toNat).map (fun px => P.PALETTE_LEN.getD (colors.getD (cell_index width py px) 0) 0)

/-! ## The computation phase under a schedule -/

/-- The computation phase with the pixels taken in the order `sched` (pairs
`(py, px)`): an interleaving of the workers of line 121 at the grain of one
pixel. -/
def compute_schedule (A : DoubleOps) (xs ys : List A.F) (width max_iter : Int)
    (sched : List (Nat × Nat)) (colors : List Nat) : Option (List Nat) :=
  sched.foldlM (fun c p => compute_pixel A xs (ys.getD p.1 A.zero) width max_iter p.1 c p.2) colors

/-- The whole run with the pixels computed in the order `sched`. -/
def render_scheduled (A : DoubleOps) (width height max_iter : Int) (center_x center_y zoom : A.F)
    (sched : List (Nat × Nat)) (write : Nat → Nat → Int) : Option (Stream × Nat) :=
  let t := coordinate_tables A width height center_x center_y zoom
  (compute_schedule A t.xs t.ys width max_iter sched
      (List.replicate (grid_size width height) 0)).map (fun colors =>
    emit_rows init_palette colors width write (List.range height.toNat) { calls := [], out := [] })

/-! ## Specification-side definitions -/

/-- A palette entry as the output format describes it: "set background colour
`c`" (`ESC [48;5;<c>m` with `c` in decimal), one space, "reset formatting"
(`ESC [0m`). -/
def palette_entry (c : Nat) : List Char :=
  ("\x1b[48;5;" ++ toString c ++ "m \x1b[0m").toList

/-- The C string held in a buffer: the bytes before the first NUL. -/
def c_string (buf : List Char) : List Char := buf.takeWhile (fun ch => ch != NUL)

/-- Every call of `write` accepts all the bytes it is given. -/
def AllWritesSucceed (write : Nat → Nat → Int) : Prop := ∀ k n, write k n = (n : Int)

/-- The quantizer's rule over the mathematical integers. -/
def quantize_spec (n max_iter : Int) : Int := 17 + ⌊((n : ℚ) * 200) / (max_iter : ℚ)⌋

/-- The value of `iter` at line 144 as a total function (0 if the loop were not
to end within `max_iter` passes, which `escape_time_eq_some_getD` excludes). -/
def escape_count (A : DoubleOps) (x0 y0 : A.F) (max_iter : Int) : Int :=
  (escape_time A x0 y0 max_iter).getD 0

/-- The colour line 144 stores for the pixel of coordinates `(x0, y0)`. -/
def pixel_color (A : DoubleOps) (x0 y0 : A.F) (max_iter : Int) : Nat :=
  iteration_to_color (escape_count A x0 y0 max_iter) max_iter

/-- The colour of the pixel that cell `j` of the row-major grid stands for:
column `j % width` of row `j / width`. -/
def grid_cell (A : DoubleOps) (xs ys : List A.F) (width max_iter : Int) (j : Nat) : Nat :=
  pixel_color A (xs.getD (j % width.toNat) A.zero) (ys.getD (j / width.toNat) A.zero) max_iter

/-- The Color Grid of a run: the colour of every pixel, row-major. -/
def color_grid (A : DoubleOps) (width height max_iter : Int) (center_x center_y zoom : A.F) :
    List Nat :=
  (List.range (width.toNat * height.toNat)).map
    (grid_cell A (coordinate_tables A width height center_x center_y zoom).xs
      (coordinate_tables A width height center_x center_y zoom).ys width max_iter)

/-- The lines of the output as the format describes them, for a grid `colors`:
line `py` is the palette entries of the cells `py * width .. py * width + width - 1`,
left to right, each entry given by `entry`. -/
def grid_lines (entry : Nat → List Char) (colors : List Nat) (width height : Int) :
    List (List Char) :=
  (List.range height.toNat).map (fun py =>
    (List.range width.toNat).flatMap (fun px => entry (colors.getD (py * width.toNat + px) 0)))

/-- All the pixels `(py, px)` of a `W` by `H` grid. -/
def all_pixels (W H : Nat) : List (Nat × Nat) :=
  (List.range H).flatMap (fun py => (List.range W).map (fun px => (py, px)))

/-- One step `z ↦ z² + c` on a complex number given by its real and imaginary
parts, with `c = x0 + i·y0`. -/
def orbit_step (x0 y0 : ℚ) (z : ℚ × ℚ) : ℚ × ℚ :=
  (z.1 * z.1 - z.2 * z.2 + x0, 2 * z.1 * z.2 + y0)

/-- The orbit of 0: `z_0 = 0`, `z_(k+1) = z_k² + c`. -/
def orbit (x0 y0 : ℚ) : Nat → ℚ × ℚ
  | 0 => (0, 0)
  | k + 1 => orbit_step x0 y0 (orbit x0 y0 k)

/-- The squared modulus `|z|²`. -/
def norm_sq (z : ℚ × ℚ) : ℚ := z.1 * z.1 + z.2 * z.2

/-- The number of decimal digits of an index below 1000. -/
def decimal_digits (i : Nat) : Nat := if i < 10 then 1 else if i < 100 then 2 else 3

/-- The locals of the loop after `k` passes through its body, whether or not
the test of line 136 lets the loop go that far. -/
def loop_iterate (A : DoubleOps) (x0 y0 : A.F) (k : Nat) : LoopState A.F :=
  (loop_body A x0 y0)^[k] (loop_init A)

/-- The locals after `k` passes in exact arithmetic, as rationals. -/
def exact_state (x0 y0 : ℚ) (k : Nat) : LoopState ℚ := loop_iterate exactOps x0 y0 k

/-! ## Machine integers: when nothing is lost -/

theorem wrap_int_of_range (v : Int) (h1 : -2147483648 ≤ v) (h2 : v ≤ 2147483647) :
    wrap_int v = v := by
  unfold wrap_int; omega

theorem wrap_int64_of_range (v : Int) (h1 : -9223372036854775808 ≤ v)
    (h2 : v ≤ 9223372036854775807) : wrap_int64 v = v := by
  unfold wrap_int64; omega

theorem to_uint8_of_range (v : Int) (h1 : 0 ≤ v) (h2 : v < 256) : (to_uint8 v : Int) = v := by
  unfold to_uint8; omega

theorem to_uint8_lt (v : Int) : to_uint8 v < 256 := by
  unfold to_uint8; omega

theorem to_size_t_of_range (v : Int) (h1 : 0 ≤ v) (h2 : v < 18446744073709551616) :
    (to_size_t v : Int) = v := by
  unfold to_size_t; omega

/-! ## The quantizer -/

theorem iteration_to_color_lt (iter max_iter : Int) : iteration_to_color iter max_iter < 256 := by
  unfold iteration_to_color
  split
  · decide
  · exact to_uint8_lt _

theorem iteration_to_color_interior (iter max_iter : Int) (h : max_iter ≤ iter) :
    iteration_to_color iter max_iter = 16 := by
  unfold iteration_to_color
  rw [if_pos h]

/-- Below `max_iter` no reduction changes a value: the result is the ramp
`17 + n * 200 / max_iter`, whose quotient lies in `[0, 199]`. -/
theorem iteration_to_color_ramp (n max_iter : Int) (hmax : max_iter ≤ INT_MAX)
    (h0 : 0 ≤ n) (hn : n < max_iter) :
    (iteration_to_color n max_iter : Int) = 17 + n * 200 / max_iter ∧
      0 ≤ n * 200 / max_iter ∧ n * 200 / max_iter ≤ 199 := by
  unfold INT_MAX at hmax
  have hpos : 0 < max_iter := by omega
  have hq0 : 0 ≤ n * 200 / max_iter := Int.ediv_nonneg (by omega) (by omega)
  have hq1 : n * 200 / max_iter < 200 := Int.ediv_lt_of_lt_mul hpos (by nlinarith)
  refine ⟨?_, hq0, by omega⟩
  unfold iteration_to_color
  rw [if_neg (by omega)]
  simp only []
  rw [wrap_int64_of_range n (by omega) (by omega),
    wrap_int64_of_range (n * 200) (by omega) (by omega),
    Int.tdiv_eq_ediv (by omega) (by omega),
    wrap_int64_of_range _ (by omega) (by omega),
    wrap_int_of_range (n * 200 / max_iter) (by omega) (by omega),
    wrap_int_of_range _ (by omega) (by omega)]
  exact to_uint8_of_range _ (by omega) (by omega)

theorem quantize_spec_eq (n max_iter : Int) (hpos : 0 < max_iter) :
    quantize_spec n max_iter = 17 + n * 200 / max_iter := by
  unfold quantize_spec
  obtain ⟨d, rfl⟩ := Int.eq_ofNat_of_zero_le (le_of_lt hpos)
  have h := Rat.floor_intCast_div_natCast (n * 200) d
  push_cast at h ⊢
  rw [h]

theorem iteration_to_color_mono_below (n1 n2 max_iter : Int) (hmax : max_iter ≤ INT_MAX)
    (h0 : 0 ≤ n1) (h12 : n1 ≤ n2) (h2 : n2 < max_iter) :
    iteration_to_color n1 max_iter ≤ iteration_to_color n2 max_iter := by
  have e1 := (iteration_to_color_ramp n1 max_iter hmax h0 (by omega)).1
  have e2 := (iteration_to_color_ramp n2 max_iter hmax (by omega) h2).1
  have hq : n1 * 200 / max_iter ≤ n2 * 200 / max_iter :=
    Int.ediv_le_ediv (by omega) (by omega)
  omega

/-- C3: for `0 < max_iter <= INT_MAX` and `0 <= n < max_iter` the quantizer
returns `17 + floor(n * 200 / max_iter)` over the mathematical integers (given
both as the rational floor and as integer division), and the result lies in
`[17, 216]`. -/
theorem iteration_to_color_exact (n max_iter : Int) (hpos : 0 < max_iter)
    (hmax : max_iter ≤ INT_MAX) (h0 : 0 ≤ n) (hn : n < max_iter) :
    (iteration_to_color n max_iter : Int) = quantize_spec n max_iter ∧
      (iteration_to_color n max_iter : Int) = 17 + n * 200 / max_iter ∧
      17 ≤ iteration_to_color n max_iter ∧ iteration_to_color n max_iter ≤ 216 := by
  obtain ⟨e, q0, q1⟩ := iteration_to_color_ramp n max_iter hmax h0 hn
  rw [quantize_spec_eq n max_iter hpos]
  exact ⟨e, e, by omega, by omega⟩

theorem iteration_to_color_exact_witness :
    (iteration_to_color 3 7 : Int) = quantize_spec 3 7 ∧
      (iteration_to_color 3 7 : Int) = 17 + 3 * 200 / 7 ∧
      17 ≤ iteration_to_color 3 7 ∧ iteration_to_color 3 7 ≤ 216 :=
  iteration_to_color_exact 3 7 (by decide) (by decide) (by decide) (by decide)

/-- C5: monotonic ramp.  For `0 <= n1 < n2 < max_iter` the colour of `n1` is at
most the colour of `n2`, both lie in `[17, 216]`, and the colour of `max_iter`
is 16 (`max_iter > 0` follows from the bounds on `n1` and `n2`). -/
theorem iteration_to_color_monotonic_ramp (n1 n2 max_iter : Int)
    (hmax : max_iter ≤ INT_MAX) (h0 : 0 ≤ n1) (h12 : n1 < n2) (h2 : n2 < max_iter) :
    iteration_to_color n1 max_iter ≤ iteration_to_color n2 max_iter ∧
      (17 ≤ iteration_to_color n1 max_iter ∧ iteration_to_color n1 max_iter ≤ 216) ∧
      (17 ≤ iteration_to_color n2 max_iter ∧ iteration_to_color n2 max_iter ≤ 216) ∧
      iteration_to_color max_iter max_iter = 16 := by
  obtain ⟨e1, a1, b1⟩ := iteration_to_color_ramp n1 max_iter hmax h0 (by omega)
  obtain ⟨e2, a2, b2⟩ := iteration_to_color_ramp n2 max_iter hmax (by omega) h2
  refine ⟨iteration_to_color_mono_below n1 n2 max_iter hmax h0 (by omega) h2,
    ⟨by omega, by omega⟩, ⟨by omega, by omega⟩,
    iteration_to_color_interior max_iter max_iter (le_refl _)⟩

theorem iteration_to_color_monotonic_ramp_witness :
    iteration_to_color 1 7 ≤ iteration_to_color 4 7 ∧
      (17 ≤ iteration_to_color 1 7 ∧ iteration_to_color 1 7 ≤ 216) ∧
      (17 ≤ iteration_to_color 4 7 ∧ iteration_to_color 4 7 ≤ 216) ∧
      iteration_to_color 7 7 = 16 :=
  iteration_to_color_monotonic_ramp 1 4 7 (by decide) (by decide) (by decide) (by decide)

/-- C6, refuted as stated: with `max_iter = 1` the counts `0 <= 1` lie in
`[0, max_iter]`, yet the colour of 0 is 17 and the colour of 1 is 16. -/
theorem iteration_to_color_not_monotone_at_max_iter :
    ¬ (∀ max_iter n1 n2 : Int, 0 < max_iter → 0 ≤ n1 → n1 ≤ n2 → n2 ≤ max_iter →
        iteration_to_color n1 max_iter ≤ iteration_to_color n2 max_iter) := by
  intro h
  exact absurd (h 1 0 1 (by decide) (by decide) (by decide) (by decide)) (by decide)

/-- C6, amended: for fixed `max_iter` the quantizer is non-decreasing on the
escaped counts `[0, max_iter)`: for `0 <= n1 <= n2 < max_iter` the colour of
`n1` is at most the colour of `n2`. -/
theorem iteration_to_color_monotone_on_escaped (n1 n2 max_iter : Int)
    (hmax : max_iter ≤ INT_MAX) (h0 : 0 ≤ n1) (h12 : n1 ≤ n2) (h2 : n2 < max_iter) :
    iteration_to_color n1 max_iter ≤ iteration_to_color n2 max_iter :=
  iteration_to_color_mono_below n1 n2 max_iter hmax h0 h12 h2

theorem iteration_to_color_monotone_on_escaped_witness :
    iteration_to_color 2 7 ≤ iteration_to_color 5 7 :=
  iteration_to_color_monotone_on_escaped 2 5 7 (by decide) (by decide) (by decide) (by decide)

/-! ## The escape-time loop -/

theorem escape_loop_of_cond_false (A : DoubleOps) (x0 y0 : A.F) (max_iter : Int) (fuel : Nat)
    (s : LoopState A.F) (h : loop_cond A max_iter s = false) :
    escape_loop A x0 y0 max_iter fuel s = some s := by
  cases fuel <;> simp [escape_loop, h]

theorem loop_cond_of_iter_ge (A : DoubleOps) (max_iter : Int) (s : LoopState A.F)
    (h : max_iter ≤ s.iter) : loop_cond A max_iter s = false := by
  unfold loop_cond
  have : decide (s.iter < max_iter) = false := decide_eq_false (by omega)
  rw [this, Bool.and_false]

theorem loop_body_iter (A : DoubleOps) (x0 y0 : A.F) (s : LoopState A.F)
    (h0 : 0 ≤ s.iter) (h1 : s.iter < INT_MAX) :
    (loop_body A x0 y0 s).iter = s.iter + 1 := by
  unfold INT_MAX at h1
  show wrap_int (s.iter + 1) = s.iter + 1
  exact wrap_int_of_range _ (by omega) (by omega)

/-- From a state whose counter is `d` below `max_iter` the loop exits after
exactly `k` passes for some `k <= d`: every fuel of at least `k` gives the same
exit state, no smaller fuel gives any, and the counter has grown by `k`. -/
theorem escape_loop_run (A : DoubleOps) (x0 y0 : A.F) (max_iter : Int)
    (hmax : max_iter ≤ INT_MAX) :
    ∀ (d : Nat) (s : LoopState A.F), 0 ≤ s.iter → s.iter + (d : Int) = max_iter →
      ∃ k : Nat, k ≤ d ∧ ∃ s1 : LoopState A.F,
        (∀ fuel, k ≤ fuel → escape_loop A x0 y0 max_iter fuel s = some s1) ∧
        (∀ fuel, fuel < k → escape_loop A x0 y0 max_iter fuel s = none) ∧
        s1.iter = s.iter + (k : Int) := by
  intro d
  induction d with
  | zero =>
    intro s _ hd
    refine ⟨0, le_refl _, s, ?_, ?_, by simp⟩
    · intro fuel _
      exact escape_loop_of_cond_false A x0 y0 max_iter fuel s
        (loop_cond_of_iter_ge A max_iter s (by omega))
    · intro fuel hf
      omega
  | succ d ih =>
    intro s h0 hd
    by_cases hc : loop_cond A max_iter s = true
    · have hb : (loop_body A x0 y0 s).iter = s.iter + 1 :=
        loop_body_iter A x0 y0 s h0 (by omega)
      obtain ⟨k, hk, s1, hge, hlt, hiter⟩ :=
        ih (loop_body A x0 y0 s) (by omega) (by rw [hb]; push_cast at hd; omega)
      refine ⟨k + 1, by omega, s1, ?_, ?_, by rw [hiter, hb]; push_cast; omega⟩
      · intro fuel hf
        obtain ⟨f, rfl⟩ : ∃ f, fuel = f + 1 := ⟨fuel - 1, by omega⟩
        simp only [escape_loop, hc, if_true]
        exact hge f (by omega)
      · intro fuel hf
        cases fuel with
        | zero => simp [escape_loop, hc]
        | succ f =>
          simp only [escape_loop, hc, if_true]
          exact hlt f (by omega)
    · have hc1 : loop_cond A max_iter s = false := by simpa using hc
      refine ⟨0, by omega, s, ?_, ?_, by simp⟩
      · intro fuel _
        exact escape_loop_of_cond_false A x0 y0 max_iter fuel s hc1
      · intro fuel hf
        omega

theorem escape_time_some (A : DoubleOps) (x0 y0 : A.F) (max_iter : Int)
    (hpos : 0 < max_iter) (hmax : max_iter ≤ INT_MAX) :
    ∃ n : Int, escape_time A x0 y0 max_iter = some n ∧ 0 ≤ n ∧ n ≤ max_iter := by
  obtain ⟨k, hk, s1, hge, _, hiter⟩ :=
    escape_loop_run A x0 y0 max_iter hmax max_iter.toNat (loop_init A) (le_refl _)
      (by show (0 : Int) + _ = _; omega)
  refine ⟨s1.iter, ?_, ?_, ?_⟩
  · unfold escape_time
    rw [hge _ hk]
    rfl
  · rw [hiter]; show (0 : Int) ≤ 0 + _; omega
  · rw [hiter]; show (0 : Int) + _ ≤ _; omega

/-- C7: for every coordinate pair, every arithmetic and every `0 < max_iter <=
INT_MAX`, the loop started at line 128 exits after exactly `k` passes for some
`k <= max_iter` (fuel `k` and more gives the exit state, less gives none), and
the count `iter` it leaves is `k`, so it lies in `[0, max_iter]`. -/
theorem escape_loop_terminates (A : DoubleOps) (x0 y0 : A.F) (max_iter : Int)
    (hpos : 0 < max_iter) (hmax : max_iter ≤ INT_MAX) :
    ∃ k : Nat, (k : Int) ≤ max_iter ∧ ∃ s : LoopState A.F,
      (∀ fuel, k ≤ fuel → escape_loop A x0 y0 max_iter fuel (loop_init A) = some s) ∧
      (∀ fuel, fuel < k → escape_loop A x0 y0 max_iter fuel (loop_init A) = none) ∧
      s.iter = (k : Int) ∧ 0 ≤ s.iter ∧ s.iter ≤ max_iter ∧
      escape_time A x0 y0 max_iter = some s.iter := by
  obtain ⟨k, hk, s1, hge, hlt, hiter⟩ :=
    escape_loop_run A x0 y0 max_iter hmax max_iter.toNat (loop_init A) (le_refl _)
      (by show (0 : Int) + _ = _; omega)
  have hi : s1.iter = (k : Int) := by rw [hiter]; show (0 : Int) + _ = _; omega
  refine ⟨k, by omega, s1, hge, hlt, hi, by omega, by omega, ?_⟩
  unfold escape_time
  rw [hge _ hk]
  rfl

theorem escape_loop_terminates_witness :
    ∃ k : Nat, (k : Int) ≤ 3 ∧ ∃ s : LoopState exactOps.F,
      (∀ fuel, k ≤ fuel →
        escape_loop exactOps (2 : ℚ) (1 : ℚ) 3 fuel (loop_init exactOps) = some s) ∧
      (∀ fuel, fuel < k →
        escape_loop exactOps (2 : ℚ) (1 : ℚ) 3 fuel (loop_init exactOps) = none) ∧
      s.iter = (k : Int) ∧ 0 ≤ s.iter ∧ s.iter ≤ 3 ∧
      escape_time exactOps (2 : ℚ) (1 : ℚ) 3 = some s.iter :=
  escape_loop_terminates exactOps (2 : ℚ) (1 : ℚ) 3 (by decide) (by decide)

/-! ## The colour grid -/

theorem to_size_t_natCast (n : Nat) (h : n < 18446744073709551616) :
    to_size_t (n : Int) = n := by
  unfold to_size_t; omega

/-- With `int` operands the index `row_offset + (size_t)px` is `py * width + px`. -/
theorem cell_index_eq (width : Int) (py px : Nat) (hw0 : 0 ≤ width) (hw : width ≤ INT_MAX)
    (hpy : py ≤ 2147483647) (hpx : px ≤ 2147483647) :
    to_size_t ((row_offset width py : Int) + (to_size_t px : Int)) = py * width.toNat + px := by
  unfold INT_MAX at hw
  have hW : width.toNat ≤ 2147483647 := by omega
  have hprod : py * width.toNat ≤ 2147483647 * 2147483647 := Nat.mul_le_mul hpy hW
  have e1 : to_size_t (py : Int) = py := to_size_t_natCast py (by omega)
  have e2 : to_size_t width = width.toNat := by
    have := to_size_t_of_range width hw0 (by omega)
    omega
  have e3 : to_size_t (px : Int) = px := to_size_t_natCast px (by omega)
  have e4 : row_offset width py = py * width.toNat := by
    unfold row_offset
    rw [e1, e2, ← Nat.cast_mul]
    exact to_size_t_natCast _ (by omega)
  rw [e4, e3, ← Nat.cast_add]
  exact to_size_t_natCast _ (by omega)

theorem escape_time_eq_some_getD (A : DoubleOps) (x0 y0 : A.F) (max_iter : Int)
    (hpos : 0 < max_iter) (hmax : max_iter ≤ INT_MAX) :
    escape_time A x0 y0 max_iter = some (escape_count A x0 y0 max_iter) := by
  obtain ⟨n, hn, _, _⟩ := escape_time_some A x0 y0 max_iter hpos hmax
  unfold escape_count
  rw [hn]
  rfl

theorem compute_pixel_eq (A : DoubleOps) (xs : List A.F) (y0 : A.F) (width max_iter : Int)
    (py px : Nat) (colors : List Nat) (hw0 : 0 ≤ width) (hw : width ≤ INT_MAX)
    (hpos : 0 < max_iter) (hmax : max_iter ≤ INT_MAX)
    (hpy : py ≤ 2147483647) (hpx : px ≤ 2147483647) :
    compute_pixel A xs y0 width max_iter py colors px =
      some (colors.set (py * width.toNat + px) (pixel_color A (xs.getD px A.zero) y0 max_iter)) := by
  unfold compute_pixel pixel_color
  rw [escape_time_eq_some_getD A _ _ max_iter hpos hmax, cell_index_eq width py px hw0 hw hpy hpx]
  rfl

/-- A monadic fold whose steps all succeed is the pure fold. -/
theorem foldlM_eq_some_foldl {α β : Type} (g : β → α → Option β) (h : β → α → β) :
    ∀ (l : List α) (b : β), (∀ a ∈ l, ∀ b1, g b1 a = some (h b1 a)) →
      l.foldlM g b = some (l.foldl h b) := by
  intro l
  induction l with
  | nil => intro b _; rfl
  | cons a l ih =>
    intro b hg
    rw [List.foldlM_cons, hg a (List.mem_cons_self a l) b, List.foldl_cons]
    exact ih (h b a) (fun a1 ha1 b1 => hg a1 (List.mem_cons_of_mem a ha1) b1)

/-- The stores of one row: the cells `off .. off + n - 1` receive `f 0 .. f (n - 1)`. -/
theorem foldl_set_range (f : Nat → Nat) (off : Nat) :
    ∀ (n : Nat) (cs : List Nat) (j : Nat),
      ((List.range n).foldl (fun c px => c.set (off + px) (f px)) cs)[j]? =
        if off ≤ j ∧ j < off + n then (cs[j]?).map (fun _ => f (j - off)) else cs[j]? := by
  intro n
  induction n with
  | zero =>
    intro cs j
    rw [if_neg (by omega)]
    rfl
  | succ n ih =>
    intro cs j
    rw [List.range_succ, List.foldl_append, List.foldl_cons, List.foldl_nil, List.getElem?_set', ih]
    by_cases h1 : off + n = j
    · subst h1
      simp
      cases cs[off + n]? <;> simp
    · rw [if_neg h1]
      by_cases h2 : off ≤ j ∧ j < off + n
      · rw [if_pos h2, if_pos (by omega)]
      · rw [if_neg h2, if_neg (by omega)]

theorem div_eq_iff_row (w j py : Nat) (hw : 0 < w) :
    j / w = py ↔ py * w ≤ j ∧ j < py * w + w := by
  constructor
  · intro h
    subst h
    have h1 := Nat.div_mul_le_self j w
    have h2 := Nat.lt_div_mul_add (a := j) hw
    exact ⟨h1, h2⟩
  · rintro ⟨h1, h2⟩
    have h3 : py ≤ j / w := (Nat.le_div_iff_mul_le hw).mpr h1
    have h4 : j / w < py + 1 := (Nat.div_lt_iff_lt_mul hw).mpr (by rw [Nat.add_mul]; omega)
    omega

/-- The stores of the rows `rs`, in any order and with any repetition: a cell of
a row in `rs` holds that pixel's value, every other cell is untouched. -/
theorem foldl_rows (g : Nat → Nat → Nat) (w : Nat) (hw : 0 < w) :
    ∀ (rs : List Nat) (cs : List Nat) (j : Nat),
      (rs.foldl (fun c py => (List.range w).foldl (fun c1 px => c1.set (py * w + px) (g py px)) c)
          cs)[j]? =
        if j / w ∈ rs then (cs[j]?).map (fun _ => g (j / w) (j % w)) else cs[j]? := by
  intro rs
  induction rs with
  | nil => intro cs j; simp
  | cons py rs ih =>
    intro cs j
    rw [List.foldl_cons, ih, foldl_set_range (g py) (py * w) w cs j]
    have hiff := div_eq_iff_row w j py hw
    by_cases hrow : j / w = py
    · have hin := hiff.mp hrow
      have hoff : j - py * w = j % w := by
        have := Nat.div_add_mod j w
        rw [hrow, Nat.mul_comm] at this
        omega
      rw [if_pos hin, hoff, ← hrow]
      by_cases hmem : j / w ∈ rs
      · rw [if_pos hmem, if_pos (List.mem_cons_of_mem _ hmem)]
        cases cs[j]? <;> rfl
      · rw [if_neg hmem, if_pos (List.mem_cons_self _ _)]
    · have hnin : ¬ (py * w ≤ j ∧ j < py * w + w) := fun h => hrow (hiff.mpr h)
      rw [if_neg hnin]
      have : (j / w ∈ py :: rs) ↔ j / w ∈ rs := by
        simp [List.mem_cons, hrow]
      simp only [this]

theorem compute_rows_eq (A : DoubleOps) (xs ys : List A.F) (width max_iter : Int)
    (hw0 : 0 < width) (hw : width ≤ INT_MAX) (hpos : 0 < max_iter) (hmax : max_iter ≤ INT_MAX)
    (rows : List Nat) (hrows : ∀ py ∈ rows, py ≤ 2147483647) (colors : List Nat) :
    compute_rows A xs ys width max_iter rows colors =
      some (rows.foldl (fun c py => (List.range width.toNat).foldl (fun c1 px =>
        c1.set (py * width.toNat + px)
          (pixel_color A (xs.getD px A.zero) (ys.getD py A.zero) max_iter)) c) colors) := by
  unfold compute_rows
  apply foldlM_eq_some_foldl
  intro py hpy c
  unfold compute_row
  apply foldlM_eq_some_foldl
  intro px hpx c1
  have hpx1 : px < width.toNat := List.mem_range.mp hpx
  unfold INT_MAX at hw
  exact compute_pixel_eq A xs _ width max_iter py px c1 (le_of_lt hw0) (by unfold INT_MAX; omega)
    hpos hmax (hrows py hpy) (by omega)

/-- The grid after the computation phase, in closed form: cell `j` holds the
colour of the pixel in column `j % width` of row `j / width`. -/
theorem compute_colors_eq (A : DoubleOps) (xs ys : List A.F) (width height max_iter : Int)
    (hw0 : 0 < width) (hw : width ≤ INT_MAX) (hh0 : 0 < height) (hh : height ≤ INT_MAX)
    (hpos : 0 < max_iter) (hmax : max_iter ≤ INT_MAX) :
    compute_colors A xs ys width height max_iter =
      some ((List.range (width.toNat * height.toNat)).map (grid_cell A xs ys width max_iter)) := by
  have hw1 := hw
  have hh1 := hh
  unfold INT_MAX at hw1 hh1
  have hW : width.toNat ≤ 2147483647 := by omega
  have hH : height.toNat ≤ 2147483647 := by omega
  have hprod : width.toNat * height.toNat ≤ 2147483647 * 2147483647 := Nat.mul_le_mul hW hH
  have hsize : to_size_t ((to_size_t width : Int) * (to_size_t height : Int)) =
      width.toNat * height.toNat := by
    have e1 : to_size_t width = width.toNat := by
      have := to_size_t_of_range width (by omega) (by omega); omega
    have e2 : to_size_t height = height.toNat := by
      have := to_size_t_of_range height (by omega) (by omega); omega
    rw [e1, e2, ← Nat.cast_mul]
    exact to_size_t_natCast _ (by omega)
  unfold compute_colors
  rw [hsize, compute_rows_eq A xs ys width max_iter hw0 hw hpos hmax _
    (fun py hpy => by have := List.mem_range.mp hpy; omega)]
  congr 1
  apply List.ext_getElem?
  intro j
  rw [foldl_rows (fun py px => pixel_color A (xs.getD px A.zero) (ys.getD py A.zero) max_iter)
    width.toNat (by omega)]
  by_cases hj : j < width.toNat * height.toNat
  · have hrow : j / width.toNat < height.toNat := (Nat.div_lt_iff_lt_mul (by omega)).mpr (by
      rw [Nat.mul_comm]; exact hj)
    rw [if_pos (List.mem_range.mpr hrow)]
    simp [hj, grid_cell]
  · have hrow : ¬ j / width.toNat < height.toNat := fun h => hj (by
      have := (Nat.div_lt_iff_lt_mul (by omega : 0 < width.toNat)).mp h
      rw [Nat.mul_comm]; exact this)
    rw [if_neg (fun h => hrow (List.mem_range.mp h))]
    rw [List.getElem?_eq_none (by simpa using Nat.le_of_not_lt hj),
      List.getElem?_eq_none (by simpa using Nat.le_of_not_lt hj)]

/-! ## The palette table -/

theorem palette_format_eq_entry (c : Nat) : palette_format c = palette_entry c := rfl

set_option maxRecDepth 1000000 in
/-- The tables `init_palette` leaves, in closed form: entry `i` is the formatted
text padded with NULs to `MAX_PALETTE_LEN` bytes, its recorded length is the
length of the text, and the value returned is 16. -/
theorem init_palette_eq :
    init_palette =
      { PALETTE := (List.range 256).map (fun i =>
          palette_format i ++ List.replicate (MAX_PALETTE_LEN - (palette_format i).length) NUL)
        PALETTE_LEN := (List.range 256).map (fun i => (palette_format i).length)
        max_len := 16 } := by
  decide

set_option maxRecDepth 1000000 in
theorem palette_format_clean :
    ∀ c, c < 256 → NUL ∉ palette_format c ∧ LF ∉ palette_format c := by
  decide

theorem getD_map_range {α : Type} (f : Nat → α) (n c : Nat) (d : α) (h : c < n) :
    ((List.range n).map f).getD c d = f c := by
  simp [List.getD, List.getElem?_map, List.getElem?_range h]

theorem palette_buf_get (c : Nat) (h : c < 256) :
    init_palette.PALETTE.getD c [] =
      palette_format c ++ List.replicate (MAX_PALETTE_LEN - (palette_format c).length) NUL := by
  rw [init_palette_eq]
  exact getD_map_range (fun i =>
    palette_format i ++ List.replicate (MAX_PALETTE_LEN - (palette_format i).length) NUL)
    256 c [] h

theorem palette_len_get (c : Nat) (h : c < 256) :
    init_palette.PALETTE_LEN.getD c 0 = (palette_format c).length := by
  rw [init_palette_eq]
  exact getD_map_range (fun i => (palette_format i).length) 256 c 0 h

/-- What `memcpy(p, PALETTE[color], len)` copies is the formatted text. -/
theorem palette_copy (c : Nat) (h : c < 256) :
    (init_palette.PALETTE.getD c []).take (init_palette.PALETTE_LEN.getD c 0) =
      palette_format c := by
  rw [palette_buf_get c h, palette_len_get c h, List.take_left']
  rfl

theorem takeWhile_append_of_stop {α : Type} (p : α → Bool) :
    ∀ (l r : List α), (∀ a ∈ l, p a = true) → (∀ a, r.head? = some a → p a = false) →
      (l ++ r).takeWhile p = l := by
  intro l
  induction l with
  | nil =>
    intro r _ hr
    cases r with
    | nil => rfl
    | cons a r => simp [List.takeWhile_cons, hr a rfl]
  | cons b l ih =>
    intro r hl hr
    rw [List.cons_append, List.takeWhile_cons, hl b (List.mem_cons_self b l)]
    simp only [if_true]
    rw [ih r (fun a ha => hl a (List.mem_cons_of_mem b ha)) hr]

/-- The C string in `PALETTE[c]` is the formatted text. -/
theorem palette_c_string (c : Nat) (h : c < 256) :
    c_string (init_palette.PALETTE.getD c []) = palette_format c := by
  rw [palette_buf_get c h]
  unfold c_string
  apply takeWhile_append_of_stop
  · intro a ha
    have hne : a ≠ NUL := fun e => (palette_format_clean c h).1 (e ▸ ha)
    simpa using hne
  · intro a ha
    cases hrep : List.replicate (MAX_PALETTE_LEN - (palette_format c).length) NUL with
    | nil => rw [hrep] at ha; cases ha
    | cons b r =>
      rw [hrep] at ha
      have hb : b ∈ List.replicate (MAX_PALETTE_LEN - (palette_format c).length) NUL := by
        rw [hrep]; exact List.mem_cons_self b r
      have hbn : b = NUL := (List.mem_replicate.mp hb).2
      have hab : a = b := by
        have : some b = some a := ha
        exact (Option.some.inj this).symm
      rw [hab, hbn]
      simp

/-! ## The row streamer -/

theorem foldl_append_flatMap {α β : Type} (g : α → List β) :
    ∀ (l : List α) (init : List β),
      l.foldl (fun p x => p ++ g x) init = init ++ l.flatMap g := by
  intro l
  induction l with
  | nil => intro init; simp
  | cons a l ih =>
    intro init
    rw [List.foldl_cons, ih, List.flatMap_cons, List.append_assoc]

/-- A row of the grid, given what the table holds for each colour. -/
theorem build_row_eq (P : PaletteTable) (entry : Nat → List Char) (colors : List Nat)
    (width : Int) (py : Nat)
    (hP : ∀ c, c < 256 → (P.PALETTE.getD c []).take (P.PALETTE_LEN.getD c 0) = entry c)
    (hw0 : 0 ≤ width) (hw : width ≤ INT_MAX) (hpy : py ≤ 2147483647)
    (hcol : ∀ j, colors.getD j 0 < 256) :
    build_row P colors width py =
      (List.range width.toNat).flatMap
        (fun px => entry (colors.getD (py * width.toNat + px) 0)) ++ [LF] := by
  unfold build_row
  rw [foldl_append_flatMap, List.nil_append]
  have hbody : ∀ px ∈ List.range width.toNat,
      (P.PALETTE.getD
          (colors.getD (to_size_t ((row_offset width py : Int) + (to_size_t px : Int))) 0) []).take
        (P.PALETTE_LEN.getD
          (colors.getD (to_size_t ((row_offset width py : Int) + (to_size_t px : Int))) 0) 0) =
      entry (colors.getD (py * width.toNat + px) 0) := by
    intro px hpx
    have hpx1 : px < width.toNat := List.mem_range.mp hpx
    have hw1 := hw
    unfold INT_MAX at hw1
    rw [cell_index_eq width py px hw0 hw hpy (by omega)]
    exact hP _ (hcol _)
  rw [List.flatMap_congr hbody]

/-- When every call accepts all its bytes, each row is one call and the stream
receives the rows one after the other. -/
theorem emit_rows_all_succeed (P : PaletteTable) (colors : List Nat) (width : Int)
    (write : Nat → Nat → Int) (hwrite : AllWritesSucceed write) :
    ∀ (rows : List Nat) (st : Stream),
      emit_rows P colors width write rows st =
        ({ calls := st.calls ++ rows.map (build_row P colors width)
           out := st.out ++ (rows.map (build_row P colors width)).flatten }, 0) := by
  intro rows
  induction rows with
  | nil => intro st; simp [emit_rows]
  | cons py rows ih =>
    intro st
    unfold emit_rows
    simp only [hwrite st.calls.length]
    rw [if_neg (by omega), ih]
    simp

theorem count_LF_lines (lines : List (List Char)) (h : ∀ l ∈ lines, LF ∉ l) :
    (lines.map (fun l => l ++ [LF])).flatten.count LF = lines.length := by
  induction lines with
  | nil => rfl
  | cons l lines ih =>
    rw [List.map_cons, List.flatten_cons, List.count_append, List.count_append,
      ih (fun l1 h1 => h l1 (List.mem_cons_of_mem l h1)),
      List.count_eq_zero_of_not_mem (h l (List.mem_cons_self l lines))]
    simp
    omega

theorem getLast_LF_lines (lines : List (List Char)) (h : lines ≠ []) :
    (lines.map (fun l => l ++ [LF])).flatten.getLast? = some LF := by
  obtain ⟨front, last, rfl⟩ : ∃ front last, lines = front ++ [last] :=
    ⟨lines.dropLast, lines.getLast h, (List.dropLast_append_getLast h).symm⟩
  rw [List.map_append, List.flatten_append]
  simp


theorem getD_map_range_lt (f : Nat → Nat) (n j : Nat) (h : ∀ i, f i < 256) :
    ((List.range n).map f).getD j 0 < 256 := by
  by_cases hj : j < n
  · rw [getD_map_range f n j 0 hj]; exact h j
  · have : ((List.range n).map f).getD j 0 = 0 := by
      simp [List.getD, List.getElem?_eq_none (l := List.range n) (by simpa using hj)]
    omega

theorem getD_lt_of_forall (colors : List Nat) (h : ∀ c ∈ colors, c < 256) (j : Nat) :
    colors.getD j 0 < 256 := by
  by_cases hj : j < colors.length
  · have : colors.getD j 0 = colors[j] := by simp [List.getD, List.getElem?_eq_getElem hj]
    rw [this]
    exact h _ (List.getElem_mem hj)
  · have : colors.getD j 0 = 0 := by
      simp [List.getD, List.getElem?_eq_none (by simpa using hj)]
    omega

theorem color_grid_getD_lt (A : DoubleOps) (width height max_iter : Int)
    (center_x center_y zoom : A.F) (j : Nat) :
    (color_grid A width height max_iter center_x center_y zoom).getD j 0 < 256 :=
  getD_map_range_lt _ _ j (fun _ => iteration_to_color_lt _ _)

/-- The whole run, once the grid is known: the grid is `color_grid` and the
rows go to the streamer. -/
theorem render_eq (A : DoubleOps) (width height max_iter : Int) (center_x center_y zoom : A.F)
    (write : Nat → Nat → Int)
    (hw0 : 0 < width) (hw : width ≤ INT_MAX) (hh0 : 0 < height) (hh : height ≤ INT_MAX)
    (hpos : 0 < max_iter) (hmax : max_iter ≤ INT_MAX) :
    render A width height max_iter center_x center_y zoom write =
      some (emit_rows init_palette (color_grid A width height max_iter center_x center_y zoom)
        width write (List.range height.toNat) { calls := [], out := [] }) := by
  unfold render
  simp only []
  rw [compute_colors_eq A _ _ width height max_iter hw0 hw hh0 hh hpos hmax]
  rfl

/-- The rows the streamer builds are the lines of the grid, each followed by
the line terminator. -/
theorem map_build_row_eq (P : PaletteTable) (entry : Nat → List Char) (colors : List Nat)
    (width height : Int)
    (hP : ∀ c, c < 256 → (P.PALETTE.getD c []).take (P.PALETTE_LEN.getD c 0) = entry c)
    (hw0 : 0 ≤ width) (hw : width ≤ INT_MAX) (hh : height ≤ INT_MAX)
    (hcol : ∀ j, colors.getD j 0 < 256) :
    (List.range height.toNat).map (build_row P colors width) =
      (grid_lines entry colors width height).map (fun l => l ++ [LF]) := by
  unfold grid_lines
  rw [List.map_map]
  apply List.map_congr_left
  intro py hpy
  have hpy1 : py < height.toNat := List.mem_range.mp hpy
  unfold INT_MAX at hh
  exact build_row_eq P entry colors width py hP hw0 hw (by omega) hcol

theorem grid_lines_shape (colors : List Nat) (width height : Int)
    (hcol : ∀ j, colors.getD j 0 < 256) :
    ∀ l ∈ grid_lines palette_entry colors width height,
      LF ∉ l ∧ ∃ cs : List Nat, cs.length = width.toNat ∧ (∀ c ∈ cs, c < 256) ∧
        l = cs.flatMap palette_entry := by
  intro l hl
  unfold grid_lines at hl
  obtain ⟨py, _, rfl⟩ := List.mem_map.mp hl
  constructor
  · intro hmem
    obtain ⟨px, _, hin⟩ := List.mem_flatMap.mp hmem
    rw [← palette_format_eq_entry] at hin
    exact (palette_format_clean _ (hcol _)).2 hin
  · refine ⟨(List.range width.toNat).map (fun px => colors.getD (py * width.toNat + px) 0),
      by simp, ?_, ?_⟩
    · intro c hc
      obtain ⟨px, _, rfl⟩ := List.mem_map.mp hc
      exact hcol _
    · simp [List.flatMap, List.map_map, Function.comp_def]

/-- C1: for `int` values `width, height, max_iter > 0`, every arithmetic and
every viewport, when all writes succeed the run ends with exit code 0 and its
output is `height` lines each followed by one line terminator and nothing else;
no line contains a line terminator, so the output has exactly `height` of them
and ends with one; each line is the concatenation of exactly `width` palette
entries `ESC [48;5;<c>m`, space, `ESC [0m` with `c < 256`. -/
theorem render_output_shape (A : DoubleOps) (width height max_iter : Int)
    (center_x center_y zoom : A.F) (write : Nat → Nat → Int)
    (hw0 : 0 < width) (hw : width ≤ INT_MAX) (hh0 : 0 < height) (hh : height ≤ INT_MAX)
    (hpos : 0 < max_iter) (hmax : max_iter ≤ INT_MAX) (hwrite : AllWritesSucceed write) :
    ∃ (st : Stream) (lines : List (List Char)),
      render A width height max_iter center_x center_y zoom write = some (st, 0) ∧
      st.out = (lines.map (fun l => l ++ [LF])).flatten ∧
      (lines.length : Int) = height ∧
      (∀ l ∈ lines, LF ∉ l ∧ ∃ cs : List Nat, (cs.length : Int) = width ∧
        (∀ c ∈ cs, c < 256) ∧ l = cs.flatMap palette_entry) ∧
      (st.out.count LF : Int) = height ∧
      st.out.getLast? = some LF := by
  have hcol := color_grid_getD_lt A width height max_iter center_x center_y zoom
  have hshape := grid_lines_shape
    (color_grid A width height max_iter center_x center_y zoom) width height hcol
  have hlen : (grid_lines palette_entry
      (color_grid A width height max_iter center_x center_y zoom) width height).length =
      height.toNat := by
    unfold grid_lines; simp
  have hr : render A width height max_iter center_x center_y zoom write =
      some ({ calls := (grid_lines palette_entry
                (color_grid A width height max_iter center_x center_y zoom) width height).map
                (fun l => l ++ [LF])
              out := ((grid_lines palette_entry
                (color_grid A width height max_iter center_x center_y zoom) width height).map
                (fun l => l ++ [LF])).flatten }, 0) := by
    rw [render_eq A width height max_iter center_x center_y zoom write hw0 hw hh0 hh hpos hmax,
      emit_rows_all_succeed init_palette _ width write hwrite,
      map_build_row_eq init_palette palette_entry _ width height
        (fun c hc => by rw [palette_copy c hc, palette_format_eq_entry])
        (le_of_lt hw0) hw hh hcol]
    simp only [List.nil_append]
  refine ⟨_, grid_lines palette_entry
    (color_grid A width height max_iter center_x center_y zoom) width height, hr, rfl,
    ?_, ?_, ?_, ?_⟩
  · rw [hlen]; omega
  · intro l hl
    obtain ⟨h1, cs, h2, h3, h4⟩ := hshape l hl
    exact ⟨h1, cs, by rw [h2]; omega, h3, h4⟩
  · show ((List.count LF (List.map (fun l => l ++ [LF]) _).flatten : Nat) : Int) = height
    rw [count_LF_lines _ (fun l hl => (hshape l hl).1), hlen]; omega
  · apply getLast_LF_lines
    intro hnil
    rw [hnil] at hlen
    simp at hlen
    omega

theorem render_output_shape_witness :
    ∃ (st : Stream) (lines : List (List Char)),
      render exactOps 3 2 5 (0 : ℚ) (0 : ℚ) (2 : ℚ) (fun _ n => (n : Int)) = some (st, 0) ∧
      st.out = (lines.map (fun l => l ++ [LF])).flatten ∧
      (lines.length : Int) = 2 ∧
      (∀ l ∈ lines, LF ∉ l ∧ ∃ cs : List Nat, (cs.length : Int) = 3 ∧
        (∀ c ∈ cs, c < 256) ∧ l = cs.flatMap palette_entry) ∧
      (st.out.count LF : Int) = 2 ∧
      st.out.getLast? = some LF :=
  render_output_shape exactOps 3 2 5 (0 : ℚ) (0 : ℚ) (2 : ℚ) (fun _ n => (n : Int))
    (by decide) (by decide) (by decide) (by decide) (by decide) (by decide) (fun _ _ => rfl)

/-- C2: for every grid `colors` of `width * height` bytes, when all writes
succeed the streamer makes exactly `height` calls of `write`, the call for row
`py` carrying the whole row: the C strings `PALETTE[colors[py * width + px]]`
for `px = 0 .. width - 1` in this order, then one line terminator; the output
is these rows for `py = 0 .. height - 1` in this order; the exit code is 0. -/
theorem emit_rows_exact (colors : List Nat) (width height : Int) (write : Nat → Nat → Int)
    (hw0 : 0 < width) (hw : width ≤ INT_MAX) (hh : height ≤ INT_MAX)
    (_hlen : colors.length = width.toNat * height.toNat) (hcol : ∀ c ∈ colors, c < 256)
    (hwrite : AllWritesSucceed write) :
    emit_rows init_palette colors width write (List.range height.toNat)
        { calls := [], out := [] } =
      ({ calls := (List.range height.toNat).map (fun py =>
            (List.range width.toNat).flatMap (fun px =>
              c_string (init_palette.PALETTE.getD (colors.getD (py * width.toNat + px) 0) []))
            ++ [LF])
         out := (List.range height.toNat).flatMap (fun py =>
            (List.range width.toNat).flatMap (fun px =>
              c_string (init_palette.PALETTE.getD (colors.getD (py * width.toNat + px) 0) []))
            ++ [LF]) }, 0) := by
  have hc := getD_lt_of_forall colors hcol
  rw [emit_rows_all_succeed init_palette _ width write hwrite,
    map_build_row_eq init_palette
      (fun c => c_string (init_palette.PALETTE.getD c [])) colors width height
      (fun c hc1 => (palette_copy c hc1).trans (palette_c_string c hc1).symm)
      (le_of_lt hw0) hw hh hc]
  unfold grid_lines
  simp only [List.nil_append, List.map_map, List.flatMap, Function.comp_def]

theorem emit_rows_exact_witness :
    emit_rows init_palette [16, 17, 216, 16, 0, 255] 3 (fun _ n => (n : Int))
        (List.range (2 : Int).toNat) { calls := [], out := [] } =
      ({ calls := (List.range (2 : Int).toNat).map (fun py =>
            (List.range (3 : Int).toNat).flatMap (fun px =>
              c_string (init_palette.PALETTE.getD
                ([16, 17, 216, 16, 0, 255].getD (py * (3 : Int).toNat + px) 0) []))
            ++ [LF])
         out := (List.range (2 : Int).toNat).flatMap (fun py =>
            (List.range (3 : Int).toNat).flatMap (fun px =>
              c_string (init_palette.PALETTE.getD
                ([16, 17, 216, 16, 0, 255].getD (py * (3 : Int).toNat + px) 0) []))
            ++ [LF]) }, 0) :=
  emit_rows_exact [16, 17, 216, 16, 0, 255] 3 2 (fun _ n => (n : Int))
    (by decide) (by decide) (by decide) (by decide) (by decide) (fun _ _ => rfl)


/-! ## Cells of the grid -/

theorem grid_index (W H py px : Nat) (hpx : px < W) (hpy : py < H) :
    (py * W + px) / W = py ∧ (py * W + px) % W = px ∧ py * W + px < W * H := by
  have hW : 0 < W := by omega
  have hdiv : (py * W + px) / W = py := (div_eq_iff_row W _ py hW).mpr ⟨by omega, by omega⟩
  have hmod : (py * W + px) % W = px := by
    have := Nat.div_add_mod (py * W + px) W
    rw [hdiv, Nat.mul_comm] at this
    omega
  have hle : (py + 1) * W ≤ H * W := Nat.mul_le_mul_right W (by omega)
  refine ⟨hdiv, hmod, ?_⟩
  rw [Nat.mul_comm W H]
  rw [Nat.add_mul] at hle
  omega

/-- The cell of pixel `(px, py)` in the grid the computation phase leaves. -/
theorem compute_colors_cell (A : DoubleOps) (xs ys : List A.F) (width height max_iter : Int)
    (hw0 : 0 < width) (hw : width ≤ INT_MAX) (hh0 : 0 < height) (hh : height ≤ INT_MAX)
    (hpos : 0 < max_iter) (hmax : max_iter ≤ INT_MAX) (py px : Nat)
    (hpy : (py : Int) < height) (hpx : (px : Int) < width) :
    ∃ colors, compute_colors A xs ys width height max_iter = some colors ∧
      colors.length = width.toNat * height.toNat ∧
      colors[py * width.toNat + px]? =
        some (pixel_color A (xs.getD px A.zero) (ys.getD py A.zero) max_iter) := by
  obtain ⟨hdiv, hmod, hlt⟩ := grid_index width.toNat height.toNat py px (by omega) (by omega)
  refine ⟨_, compute_colors_eq A xs ys width height max_iter hw0 hw hh0 hh hpos hmax,
    by simp, ?_⟩
  rw [List.getElem?_map, List.getElem?_range hlt]
  show some (grid_cell A xs ys width max_iter (py * width.toNat + px)) = _
  unfold grid_cell
  rw [hdiv, hmod]

/-- C4: for `0 < max_iter <= INT_MAX`, every count `n >= max_iter` has colour
16, no count `0 <= n < max_iter` has colour 16, and a pixel `(px, py)` of the
grid whose loop ends with `iter = max_iter` has 16 in its cell
`py * width + px` of the Color Grid. -/
theorem interior_color_16 (n max_iter : Int) (hpos : 0 < max_iter) (hmax : max_iter ≤ INT_MAX) :
    (max_iter ≤ n → iteration_to_color n max_iter = 16) ∧
    (0 ≤ n → n < max_iter → iteration_to_color n max_iter ≠ 16) ∧
    (∀ (A : DoubleOps) (xs ys : List A.F) (width height : Int) (py px : Nat),
      0 < width → width ≤ INT_MAX → 0 < height → height ≤ INT_MAX →
      (py : Int) < height → (px : Int) < width →
      escape_time A (xs.getD px A.zero) (ys.getD py A.zero) max_iter = some max_iter →
      ∃ colors, compute_colors A xs ys width height max_iter = some colors ∧
        colors[py * width.toNat + px]? = some 16) := by
  refine ⟨iteration_to_color_interior n max_iter, ?_, ?_⟩
  · intro h0 hn h16
    have := (iteration_to_color_ramp n max_iter hmax h0 hn)
    omega
  · intro A xs ys width height py px hw0 hw hh0 hh hpy hpx hesc
    obtain ⟨colors, hc, _, hcell⟩ := compute_colors_cell A xs ys width height max_iter
      hw0 hw hh0 hh hpos hmax py px hpy hpx
    refine ⟨colors, hc, ?_⟩
    rw [hcell]
    unfold pixel_color escape_count
    rw [hesc]
    exact congrArg some (iteration_to_color_interior max_iter max_iter (le_refl _))

theorem interior_color_16_witness :
    iteration_to_color 5 3 = 16 ∧ iteration_to_color 2 3 ≠ 16 ∧
      ∃ colors, compute_colors exactOps [(0 : ℚ), (2 : ℚ)] [(0 : ℚ)] 2 1 3 = some colors ∧
        colors[0 * (2 : Int).toNat + 0]? = some 16 :=
  ⟨(interior_color_16 5 3 (by decide) (by decide)).1 (by decide),
   (interior_color_16 2 3 (by decide) (by decide)).2.1 (by decide) (by decide),
   (interior_color_16 0 3 (by decide) (by decide)).2.2 exactOps [(0 : ℚ), (2 : ℚ)] [(0 : ℚ)]
      2 1 0 0 (by decide) (by decide) (by decide) (by decide) (by decide) (by decide)
      (by simp [escape_time, escape_loop, loop_cond, loop_body, loop_init, exactOps, wrap_int])⟩

/-! ## Exit codes of the streamer -/

/-- The first call of `write` that returns a negative value ends the loop: the
rows up to that one have been handed to `write`, no other, and the exit code
is 1. -/
theorem emit_rows_first_failure (P : PaletteTable) (colors : List Nat) (width : Int)
    (write : Nat → Nat → Int) :
    ∀ (rows : List Nat) (st : Stream) (k : Nat), k < rows.length →
      (∀ j, j < k →
        0 ≤ write (st.calls.length + j) (build_row P colors width (rows.getD j 0)).length) →
      write (st.calls.length + k) (build_row P colors width (rows.getD k 0)).length < 0 →
      (emit_rows P colors width write rows st).2 = 1 ∧
        (emit_rows P colors width write rows st).1.calls =
          st.calls ++ (rows.take (k + 1)).map (build_row P colors width) := by
  intro rows
  induction rows with
  | nil => intro st k hk; simp at hk
  | cons py rows ih =>
    intro st k hk hpre hfail
    cases k with
    | zero =>
      have hf : write st.calls.length (build_row P colors width py).length < 0 := by
        simpa using hfail
      unfold emit_rows
      simp only []
      rw [if_pos hf]
      simp
    | succ k =>
      have h0 : 0 ≤ write st.calls.length (build_row P colors width py).length := by
        simpa using hpre 0 (by omega)
      unfold emit_rows
      simp only []
      rw [if_neg (by omega)]
      have hlen : (st.calls ++ [build_row P colors width py]).length = st.calls.length + 1 := by
        simp
      obtain ⟨e1, e2⟩ := ih
        { calls := st.calls ++ [build_row P colors width py]
          out := st.out ++ (build_row P colors width py).take
            (write st.calls.length (build_row P colors width py).length).toNat }
        k (by simpa using hk)
        (fun j hj => by
          have := hpre (j + 1) (by omega)
          simp only [hlen]
          rw [Nat.add_assoc, Nat.add_comm 1 j]
          simpa using this)
        (by
          simp only [hlen]
          rw [Nat.add_assoc, Nat.add_comm 1 k]
          simpa using hfail)
      refine ⟨e1, ?_⟩
      rw [e2]
      simp


theorem getD_range (n j : Nat) (h : j < n) : (List.range n).getD j 0 = j := by
  simp [List.getD, List.getElem?_range h]

/-- C8, amended: a failed write is fatal.  For `int` values `width, height,
max_iter > 0` and every row `k < height`, if the call of `write` for row `k`
returns a negative value, the earlier calls having returned non-negative
values, then the run ends with exit code 1 and the buffers handed to `write`
are exactly the rows `0 .. k`: no later row is written. -/
theorem write_error_is_fatal (A : DoubleOps) (width height max_iter : Int)
    (center_x center_y zoom : A.F) (write : Nat → Nat → Int)
    (hw0 : 0 < width) (hw : width ≤ INT_MAX) (hh0 : 0 < height) (hh : height ≤ INT_MAX)
    (hpos : 0 < max_iter) (hmax : max_iter ≤ INT_MAX) (k : Nat) (hk : (k : Int) < height)
    (hpre : ∀ j, j < k → 0 ≤ write j (build_row init_palette
      (color_grid A width height max_iter center_x center_y zoom) width j).length)
    (hfail : write k (build_row init_palette
      (color_grid A width height max_iter center_x center_y zoom) width k).length < 0) :
    ∃ st : Stream, render A width height max_iter center_x center_y zoom write = some (st, 1) ∧
      st.calls = (List.range (k + 1)).map (build_row init_palette
        (color_grid A width height max_iter center_x center_y zoom) width) := by
  have hkH : k < height.toNat := by omega
  obtain ⟨e1, e2⟩ := emit_rows_first_failure init_palette
    (color_grid A width height max_iter center_x center_y zoom) width write
    (List.range height.toNat) { calls := [], out := [] } k (by simpa using hkH)
    (fun j hj => by
      rw [getD_range height.toNat j (by omega)]
      simpa using hpre j hj)
    (by
      rw [getD_range height.toNat k hkH]
      simpa using hfail)
  refine ⟨(emit_rows init_palette (color_grid A width height max_iter center_x center_y zoom)
    width write (List.range height.toNat) { calls := [], out := [] }).1, ?_, ?_⟩
  · rw [render_eq A width height max_iter center_x center_y zoom write hw0 hw hh0 hh hpos hmax]
    exact congrArg some (Prod.ext rfl e1)
  · rw [e2, List.take_range, Nat.min_eq_left (by omega)]
    rfl

/-! ## The boundary `max_iter = 1` -/

/-- With `max_iter = 1` the loop makes one pass and no more, whatever the
coordinates: the test of line 136 holds at entry (`0.0 + 0.0 <= 4.0`, `0 < 1`)
and fails after the pass (`1 < 1`). -/
theorem escape_loop_one (A : DoubleOps) (hA : A.le (A.add A.zero A.zero) A.four = true)
    (x0 y0 : A.F) :
    escape_loop A x0 y0 1 0 (loop_init A) = none ∧
      escape_loop A x0 y0 1 1 (loop_init A) = some (loop_body A x0 y0 (loop_init A)) ∧
      (loop_body A x0 y0 (loop_init A)).iter = 1 ∧
      escape_time A x0 y0 1 = some 1 := by
  have hc0 : loop_cond A 1 (loop_init A) = true := by
    show (A.le (A.add A.zero A.zero) A.four && decide ((0 : Int) < 1)) = true
    rw [hA]
    rfl
  have hi : (loop_body A x0 y0 (loop_init A)).iter = 1 := by
    show wrap_int ((0 : Int) + 1) = 1
    decide
  have hc1 : loop_cond A 1 (loop_body A x0 y0 (loop_init A)) = false :=
    loop_cond_of_iter_ge A 1 _ (by rw [hi])
  have h1 : escape_loop A x0 y0 1 1 (loop_init A) = some (loop_body A x0 y0 (loop_init A)) := by
    show (if loop_cond A 1 (loop_init A) then
      escape_loop A x0 y0 1 0 (loop_body A x0 y0 (loop_init A)) else some (loop_init A)) = _
    rw [hc0, if_pos rfl]
    exact escape_loop_of_cond_false A x0 y0 1 0 _ hc1
  refine ⟨?_, h1, hi, ?_⟩
  · show (if loop_cond A 1 (loop_init A) then none else some (loop_init A)) = none
    rw [hc0, if_pos rfl]
  · unfold escape_time
    show Option.map _ (escape_loop A x0 y0 1 1 (loop_init A)) = _
    rw [h1]
    exact congrArg some hi

theorem pixel_color_one (A : DoubleOps) (hA : A.le (A.add A.zero A.zero) A.four = true)
    (x0 y0 : A.F) : pixel_color A x0 y0 1 = 16 := by
  unfold pixel_color escape_count
  rw [(escape_loop_one A hA x0 y0).2.2.2]
  decide

theorem color_grid_one (A : DoubleOps) (hA : A.le (A.add A.zero A.zero) A.four = true)
    (width height : Int) (center_x center_y zoom : A.F) :
    color_grid A width height 1 center_x center_y zoom =
      List.replicate (width.toNat * height.toNat) 16 := by
  unfold color_grid
  have hf : grid_cell A (coordinate_tables A width height center_x center_y zoom).xs
      (coordinate_tables A width height center_x center_y zoom).ys width 1 = fun _ => 16 := by
    funext j
    exact pixel_color_one A hA _ _
  rw [hf, List.map_const']
  simp

theorem flatMap_const_range {β : Type} (e : List β) (n : Nat) :
    (List.range n).flatMap (fun _ => e) = (List.replicate n e).flatten := by
  unfold List.flatMap
  rw [List.map_const']
  simp

/-- A row of a grid that holds 16 everywhere. -/
theorem build_row_all_16 (width height : Int) (py : Nat)
    (hw0 : 0 ≤ width) (hw : width ≤ INT_MAX) (hh : height ≤ INT_MAX)
    (hpy : py < height.toNat) :
    build_row init_palette (List.replicate (width.toNat * height.toNat) 16) width py =
      (List.replicate width.toNat (palette_entry 16)).flatten ++ [LF] := by
  have hcol : ∀ j, (List.replicate (width.toNat * height.toNat) 16).getD j 0 < 256 :=
    getD_lt_of_forall _ (fun c hc => by rw [(List.mem_replicate.mp hc).2]; decide)
  have hh1 := hh
  unfold INT_MAX at hh1
  rw [build_row_eq init_palette palette_entry _ width py
    (fun c hc => by rw [palette_copy c hc, palette_format_eq_entry]) hw0 hw (by omega) hcol,
    ← flatMap_const_range]
  congr 1
  apply List.flatMap_congr
  intro px hpx
  have hpx1 : px < width.toNat := List.mem_range.mp hpx
  obtain ⟨_, _, hlt⟩ := grid_index width.toNat height.toNat py px hpx1 hpy
  have : (List.replicate (width.toNat * height.toNat) 16).getD (py * width.toNat + px) 0 = 16 := by
    simp [List.getD, List.getElem?_replicate_of_lt hlt]
  rw [this]


theorem exactOps_init_test :
    exactOps.le (exactOps.add exactOps.zero exactOps.zero) exactOps.four = true := by
  simp [exactOps]

/-- C9: with `max_iter = 1`, for every arithmetic in which `0.0 + 0.0 <= 4.0`
holds, every `int` size `width, height > 0`, every viewport and every
coordinate pair, the loop makes exactly one pass (no exit state with fuel 0,
the state after one pass of the body with fuel 1), leaves `iter = 1`, and the
Color Grid is 16 in each of its `width * height` cells. -/
theorem max_iter_one_all_interior (A : DoubleOps)
    (hA : A.le (A.add A.zero A.zero) A.four = true) (width height : Int)
    (center_x center_y zoom x0 y0 : A.F)
    (hw0 : 0 < width) (hw : width ≤ INT_MAX) (hh0 : 0 < height) (hh : height ≤ INT_MAX) :
    (escape_loop A x0 y0 1 0 (loop_init A) = none ∧
      escape_loop A x0 y0 1 1 (loop_init A) = some (loop_body A x0 y0 (loop_init A)) ∧
      (loop_body A x0 y0 (loop_init A)).iter = 1 ∧
      escape_time A x0 y0 1 = some 1) ∧
    compute_colors A (coordinate_tables A width height center_x center_y zoom).xs
        (coordinate_tables A width height center_x center_y zoom).ys width height 1 =
      some (List.replicate (width.toNat * height.toNat) 16) := by
  refine ⟨escape_loop_one A hA x0 y0, ?_⟩
  rw [← color_grid_one A hA width height center_x center_y zoom]
  exact compute_colors_eq A _ _ width height 1 hw0 hw hh0 hh (by decide) (by decide)

theorem max_iter_one_all_interior_witness :
    (escape_loop exactOps (3 : ℚ) (-1 : ℚ) 1 0 (loop_init exactOps) = none ∧
      escape_loop exactOps (3 : ℚ) (-1 : ℚ) 1 1 (loop_init exactOps) =
        some (loop_body exactOps (3 : ℚ) (-1 : ℚ) (loop_init exactOps)) ∧
      (loop_body exactOps (3 : ℚ) (-1 : ℚ) (loop_init exactOps)).iter = 1 ∧
      escape_time exactOps (3 : ℚ) (-1 : ℚ) 1 = some 1) ∧
    compute_colors exactOps
        (coordinate_tables exactOps 4 3 (0 : ℚ) (0 : ℚ) (2 : ℚ)).xs
        (coordinate_tables exactOps 4 3 (0 : ℚ) (0 : ℚ) (2 : ℚ)).ys 4 3 1 =
      some (List.replicate ((4 : Int).toNat * (3 : Int).toNat) 16) :=
  max_iter_one_all_interior exactOps exactOps_init_test 4 3 (0 : ℚ) (0 : ℚ) (2 : ℚ)
    (3 : ℚ) (-1 : ℚ) (by decide) (by decide) (by decide) (by decide)

/-- C10: the scenario `width = 2, height = 1, max_iter = 1, center = (0, 0),
zoom = 2`, in every arithmetic in which `0.0 + 0.0 <= 4.0` holds and with a
`write` that accepts the 31 bytes of the row.  Both pixels reach the count 1,
the grid is `[16, 16]`, `write` is called once, and the output is the entry of
colour 16 twice followed by one line terminator; the exit code is 0. -/
theorem scenario_two_by_one (A : DoubleOps) (hA : A.le (A.add A.zero A.zero) A.four = true)
    (write : Nat → Nat → Int) (hwrite : write 0 31 = 31) :
    escape_time A ((coordinate_tables A 2 1 A.zero A.zero A.two).xs.getD 0 A.zero)
        ((coordinate_tables A 2 1 A.zero A.zero A.two).ys.getD 0 A.zero) 1 = some 1 ∧
    escape_time A ((coordinate_tables A 2 1 A.zero A.zero A.two).xs.getD 1 A.zero)
        ((coordinate_tables A 2 1 A.zero A.zero A.two).ys.getD 0 A.zero) 1 = some 1 ∧
    compute_colors A (coordinate_tables A 2 1 A.zero A.zero A.two).xs
        (coordinate_tables A 2 1 A.zero A.zero A.two).ys 2 1 1 = some [16, 16] ∧
    render A 2 1 1 A.zero A.zero A.two write =
      some ({ calls := ["\x1b[48;5;16m \x1b[0m\x1b[48;5;16m \x1b[0m\n".toList]
              out := "\x1b[48;5;16m \x1b[0m\x1b[48;5;16m \x1b[0m\n".toList }, 0) := by
  have hgrid := color_grid_one A hA 2 1 A.zero A.zero A.two
  have hrow : build_row init_palette (List.replicate ((2 : Int).toNat * (1 : Int).toNat) 16) 2 0 =
      "\x1b[48;5;16m \x1b[0m\x1b[48;5;16m \x1b[0m\n".toList :=
    (build_row_all_16 2 1 0 (by decide) (by decide) (by decide) (by decide)).trans (by rfl)
  refine ⟨(escape_loop_one A hA _ _).2.2.2, (escape_loop_one A hA _ _).2.2.2, ?_, ?_⟩
  · have h := compute_colors_eq A (coordinate_tables A 2 1 A.zero A.zero A.two).xs
      (coordinate_tables A 2 1 A.zero A.zero A.two).ys 2 1 1
      (by decide) (by decide) (by decide) (by decide) (by decide) (by decide)
    rw [h]
    exact congrArg some hgrid
  · rw [render_eq A 2 1 1 A.zero A.zero A.two write
      (by decide) (by decide) (by decide) (by decide) (by decide) (by decide), hgrid]
    show some (emit_rows init_palette _ 2 write [0] { calls := [], out := [] }) = _
    simp only [emit_rows, hrow]
    have hlen : "\x1b[48;5;16m \x1b[0m\x1b[48;5;16m \x1b[0m\n".toList.length = 31 := by rfl
    simp only [hlen, List.length_nil, hwrite]
    rfl

theorem scenario_two_by_one_witness :
    escape_time exactOps
        ((coordinate_tables exactOps 2 1 exactOps.zero exactOps.zero exactOps.two).xs.getD 0
          exactOps.zero)
        ((coordinate_tables exactOps 2 1 exactOps.zero exactOps.zero exactOps.two).ys.getD 0
          exactOps.zero) 1 = some 1 ∧
    escape_time exactOps
        ((coordinate_tables exactOps 2 1 exactOps.zero exactOps.zero exactOps.two).xs.getD 1
          exactOps.zero)
        ((coordinate_tables exactOps 2 1 exactOps.zero exactOps.zero exactOps.two).ys.getD 0
          exactOps.zero) 1 = some 1 ∧
    compute_colors exactOps
        (coordinate_tables exactOps 2 1 exactOps.zero exactOps.zero exactOps.two).xs
        (coordinate_tables exactOps 2 1 exactOps.zero exactOps.zero exactOps.two).ys 2 1 1 =
      some [16, 16] ∧
    render exactOps 2 1 1 exactOps.zero exactOps.zero exactOps.two (fun _ n => (n : Int)) =
      some ({ calls := ["\x1b[48;5;16m \x1b[0m\x1b[48;5;16m \x1b[0m\n".toList]
              out := "\x1b[48;5;16m \x1b[0m\x1b[48;5;16m \x1b[0m\n".toList }, 0) :=
  scenario_two_by_one exactOps exactOps_init_test (fun _ n => (n : Int)) rfl

theorem write_error_is_fatal_witness :
    ∃ st : Stream,
      render exactOps 1 2 1 (0 : ℚ) (0 : ℚ) (2 : ℚ)
        (fun k n => if k = 1 then (-1 : Int) else (n : Int)) = some (st, 1) ∧
      st.calls = (List.range (1 + 1)).map (build_row init_palette
        (color_grid exactOps 1 2 1 (0 : ℚ) (0 : ℚ) (2 : ℚ)) 1) :=
  write_error_is_fatal exactOps 1 2 1 (0 : ℚ) (0 : ℚ) (2 : ℚ)
    (fun k n => if k = 1 then (-1 : Int) else (n : Int))
    (by decide) (by decide) (by decide) (by decide) (by decide) (by decide) 1 (by decide)
    (fun j hj => by
      have hj1 : j ≠ 1 := by omega
      simp only [hj1, if_false]
      exact Int.natCast_nonneg _)
    (by simp)

/-- C8, refuted as stated: `width = 1, height = 2, max_iter = 1`, and a `write`
whose first call returns 0 (a short write: the row has 16 bytes) and whose
later calls accept everything.  The second row is still handed to `write` and
the exit code is 0; the stream holds the second row only. -/
theorem short_write_is_not_fatal :
    (palette_entry 16 ++ [LF]).length = 16 ∧
    render exactOps 1 2 1 (0 : ℚ) (0 : ℚ) (2 : ℚ)
        (fun k n => if k = 0 then (0 : Int) else (n : Int)) =
      some ({ calls := [palette_entry 16 ++ [LF], palette_entry 16 ++ [LF]]
              out := palette_entry 16 ++ [LF] }, 0) := by
  have hgrid := color_grid_one exactOps exactOps_init_test 1 2 (0 : ℚ) (0 : ℚ) (2 : ℚ)
  have hrow0 : build_row init_palette
      (List.replicate ((1 : Int).toNat * (2 : Int).toNat) 16) 1 0 = palette_entry 16 ++ [LF] :=
    (build_row_all_16 1 2 0 (by decide) (by decide) (by decide) (by decide)).trans (by rfl)
  have hrow1 : build_row init_palette
      (List.replicate ((1 : Int).toNat * (2 : Int).toNat) 16) 1 1 = palette_entry 16 ++ [LF] :=
    (build_row_all_16 1 2 1 (by decide) (by decide) (by decide) (by decide)).trans (by rfl)
  refine ⟨by decide, ?_⟩
  rw [render_eq exactOps 1 2 1 (0 : ℚ) (0 : ℚ) (2 : ℚ) _
    (by decide) (by decide) (by decide) (by decide) (by decide) (by decide), hgrid]
  show some (emit_rows init_palette _ 1 _ [0, 1] { calls := [], out := [] }) = _
  simp only [emit_rows, hrow0, hrow1]
  rfl

/-! ## The coordinate mapper on the scenario -/

theorem coordinate_tables_eq_viewport (A : DoubleOps) (width height : Int)
    (center_x center_y zoom : A.F) :
    coordinate_tables A width height center_x center_y zoom =
      { xs := (List.range width.toNat).map (fun px =>
          A.add (viewport A width height center_x center_y zoom).xmin
            (A.mul (viewport A width height center_x center_y zoom).dx (A.ofInt px)))
        ys := (List.range height.toNat).map (fun py =>
          A.add (viewport A width height center_x center_y zoom).ymin
            (A.mul (viewport A width height center_x center_y zoom).dy (A.ofInt py))) } :=
  rfl

/-- C11, refuted as stated: in exact arithmetic the scenario `width = 2,
height = 1, center = (0, 0), zoom = 2` gives `dy = 2 * zoom * aspect / height
= 2`, not 1. -/
theorem scenario_dy_is_not_one :
    (viewport exactOps 2 1 (0 : ℚ) (0 : ℚ) (2 : ℚ)).dy = (2 : ℚ) ∧
      (viewport exactOps 2 1 (0 : ℚ) (0 : ℚ) (2 : ℚ)).dy ≠ (1 : ℚ) := by
  have h : (viewport exactOps 2 1 (0 : ℚ) (0 : ℚ) (2 : ℚ)).dy = (2 : ℚ) := by
    simp [viewport, exactOps]
  exact ⟨h, by rw [h]; norm_num⟩

/-- C11, amended: in exact arithmetic the scenario `width = 2, height = 1,
center = (0, 0), zoom = 2` gives `aspect = 1/2`, `xmin = -2`, `ymin = -1`,
`dx = 2`, `dy = 2`, `xs = [-2, 0]` and `ys = [-1]`. -/
theorem scenario_mapper_values :
    (viewport exactOps 2 1 (0 : ℚ) (0 : ℚ) (2 : ℚ)).aspect = (1 / 2 : ℚ) ∧
    (viewport exactOps 2 1 (0 : ℚ) (0 : ℚ) (2 : ℚ)).xmin = (-2 : ℚ) ∧
    (viewport exactOps 2 1 (0 : ℚ) (0 : ℚ) (2 : ℚ)).ymin = (-1 : ℚ) ∧
    (viewport exactOps 2 1 (0 : ℚ) (0 : ℚ) (2 : ℚ)).dx = (2 : ℚ) ∧
    (viewport exactOps 2 1 (0 : ℚ) (0 : ℚ) (2 : ℚ)).dy = (2 : ℚ) ∧
    (coordinate_tables exactOps 2 1 (0 : ℚ) (0 : ℚ) (2 : ℚ)).xs = [(-2 : ℚ), (0 : ℚ)] ∧
    (coordinate_tables exactOps 2 1 (0 : ℚ) (0 : ℚ) (2 : ℚ)).ys = [(-1 : ℚ)] := by
  refine ⟨?_, ?_, ?_, ?_, ?_, ?_, ?_⟩
  · simp [viewport, exactOps]
  · simp [viewport, exactOps]
  · simp [viewport, exactOps]
  · simp [viewport, exactOps]
  · simp [viewport, exactOps]
  · simp [coordinate_tables, exactOps, List.range_succ]
  · simp [coordinate_tables, exactOps, List.range_succ]

/-! ## Narrowing of the validated arguments -/

/-- A parsed value that fits an `int` is not changed by the cast. -/
theorem validate_args_in_range (A : DoubleOps) (width_l height_l max_iter_l : Int) (zoom : A.F)
    (hz : A.le zoom A.zero = false)
    (hw0 : 0 < width_l) (hw : width_l ≤ INT_MAX) (hh0 : 0 < height_l) (hh : height_l ≤ INT_MAX)
    (hm0 : 0 < max_iter_l) (hm : max_iter_l ≤ INT_MAX) :
    validate_args A width_l height_l max_iter_l zoom = some (width_l, height_l, max_iter_l) := by
  unfold INT_MAX at hw hh hm
  unfold validate_args
  rw [if_neg (by rw [hz]; simp; omega),
    wrap_int_of_range width_l (by omega) hw, wrap_int_of_range height_l (by omega) hh,
    wrap_int_of_range max_iter_l (by omega) hm]

/-- C14 at the input `width = 4294967296` (2^32), `height = 1`, `max_iter = 1`,
`zoom = 2`: the value passes the test of line 84, the cast of line 89 gives
`width = 0`, and the run writes one empty line and ends with exit code 0. -/
theorem validated_width_can_be_zero :
    (0 : Int) < 4294967296 ∧
    validate_args exactOps 4294967296 1 1 (2 : ℚ) = some (0, 1, 1) ∧
    main_parsed exactOps 4294967296 1 1 (0 : ℚ) (0 : ℚ) (2 : ℚ) (fun _ n => (n : Int)) =
      some ({ calls := [[LF]], out := [LF] }, 0) := by
  have hv : validate_args exactOps 4294967296 1 1 (2 : ℚ) = some (0, 1, 1) := by
    simp [validate_args, exactOps, wrap_int]
  refine ⟨by decide, hv, ?_⟩
  unfold main_parsed
  rw [hv]
  simp [render, compute_colors, compute_rows, compute_row, emit_rows, build_row, List.range_succ]
/-! ## Lengths of the palette entries -/

set_option maxRecDepth 1000000 in
theorem palette_format_length :
    ∀ c, c < 256 → (palette_format c).length = 13 + decimal_digits c := by
  decide

theorem toDigits_length_lt_256 :
    ∀ c, c < 256 → (Nat.toDigits 10 c).length = decimal_digits c := by
  intro c hc
  have h := palette_format_length c hc
  unfold palette_format at h
  simp only [List.length_append, List.length_cons, List.length_nil] at h
  omega

theorem palette_len_eq (c : Nat) (h : c < 256) :
    init_palette.PALETTE_LEN.getD c 0 = 13 + decimal_digits c := by
  rw [palette_len_get c h, palette_format_length c h]

theorem decimal_digits_bounds (c : Nat) : 1 ≤ decimal_digits c ∧ decimal_digits c ≤ 3 := by
  unfold decimal_digits
  split
  · omega
  · split <;> omega

theorem init_palette_max_len : init_palette.max_len = 16 := by
  rw [init_palette_eq]

theorem palette_buf_length (c : Nat) (h : c < 256) :
    (init_palette.PALETTE.getD c []).length = MAX_PALETTE_LEN := by
  rw [palette_buf_get c h, List.length_append, List.length_replicate, palette_format_length c h]
  have := decimal_digits_bounds c
  unfold MAX_PALETTE_LEN
  omega

/-- C17: for every index `i` in `0 .. 255`, after `init_palette` the buffer
`PALETTE[i]` has `MAX_PALETTE_LEN` bytes and holds the C string `ESC "[48;5;"
decimal(i) "m" SPACE ESC "[0m"`; `PALETTE_LEN[i]` is its byte length, 13 plus
the number of decimal digits of `i`; the value `snprintf` returns is in
`[0, MAX_PALETTE_LEN)`, so the branch of lines 22-25 is not taken, whatever the
buffer held; and `init_palette` returns 16, the largest of the lengths. -/
theorem init_palette_entries (i : Nat) (hi : i < 256) :
    (init_palette.PALETTE.getD i []).length = MAX_PALETTE_LEN ∧
    c_string (init_palette.PALETTE.getD i []) = palette_entry i ∧
    palette_entry i =
      [ESC, '[', '4', '8', ';', '5', ';'] ++ Nat.toDigits 10 i ++ ['m', ' ', ESC, '[', '0', 'm'] ∧
    init_palette.PALETTE_LEN.getD i 0 = (palette_entry i).length ∧
    init_palette.PALETTE_LEN.getD i 0 = 13 + (Nat.toDigits 10 i).length ∧
    (Nat.toDigits 10 i).length = decimal_digits i ∧
    (∀ buf : List Char,
      ¬ ((snprintf buf MAX_PALETTE_LEN (palette_format i)).2 < 0 ∨
         (snprintf buf MAX_PALETTE_LEN (palette_format i)).2 ≥ (MAX_PALETTE_LEN : Int))) ∧
    init_palette.max_len = 16 ∧
    init_palette.PALETTE_LEN.getD i 0 ≤ init_palette.max_len ∧
    init_palette.PALETTE_LEN.getD 255 0 = init_palette.max_len := by
  have hd := toDigits_length_lt_256 i hi
  have hb := decimal_digits_bounds i
  have hl := palette_len_eq i hi
  refine ⟨palette_buf_length i hi, ?_, rfl, ?_, ?_, hd, ?_, init_palette_max_len, ?_, ?_⟩
  · rw [palette_c_string i hi, palette_format_eq_entry]
  · rw [palette_len_get i hi, palette_format_eq_entry]
  · rw [hl, hd]
  · intro buf
    have hret : (snprintf buf MAX_PALETTE_LEN (palette_format i)).2 =
        ((palette_format i).length : Int) := by
      unfold snprintf
      split <;> rfl
    rw [hret, palette_format_length i hi]
    unfold MAX_PALETTE_LEN
    omega
  · rw [hl, init_palette_max_len]; omega
  · rw [palette_len_eq 255 (by decide), init_palette_max_len]
    decide

theorem init_palette_entries_witness :
    (init_palette.PALETTE.getD 216 []).length = MAX_PALETTE_LEN ∧
    c_string (init_palette.PALETTE.getD 216 []) = palette_entry 216 ∧
    palette_entry 216 =
      [ESC, '[', '4', '8', ';', '5', ';'] ++ Nat.toDigits 10 216 ++
        ['m', ' ', ESC, '[', '0', 'm'] ∧
    init_palette.PALETTE_LEN.getD 216 0 = (palette_entry 216).length ∧
    init_palette.PALETTE_LEN.getD 216 0 = 13 + (Nat.toDigits 10 216).length ∧
    (Nat.toDigits 10 216).length = decimal_digits 216 ∧
    (∀ buf : List Char,
      ¬ ((snprintf buf MAX_PALETTE_LEN (palette_format 216)).2 < 0 ∨
         (snprintf buf MAX_PALETTE_LEN (palette_format 216)).2 ≥ (MAX_PALETTE_LEN : Int))) ∧
    init_palette.max_len = 16 ∧
    init_palette.PALETTE_LEN.getD 216 0 ≤ init_palette.max_len ∧
    init_palette.PALETTE_LEN.getD 255 0 = init_palette.max_len :=
  init_palette_entries 216 (by decide)
/-! ## Sizes of the rows -/

theorem sum_map_bounds {α : Type} (f : α → Nat) (a b : Nat) :
    ∀ l : List α, (∀ x ∈ l, a ≤ f x ∧ f x ≤ b) →
      l.length * a ≤ (l.map f).sum ∧ (l.map f).sum ≤ l.length * b := by
  intro l
  induction l with
  | nil => intro _; simp
  | cons x l ih =>
    intro h
    obtain ⟨h1, h2⟩ := ih (fun y hy => h y (List.mem_cons_of_mem x hy))
    obtain ⟨h3, h4⟩ := h x (List.mem_cons_self x l)
    rw [List.map_cons, List.sum_cons, List.length_cons, Nat.add_mul, Nat.add_mul]
    omega

theorem sum_take_le_sum (n : Nat) : ∀ l : List Nat, (l.take n).sum ≤ l.sum := by
  induction n with
  | zero => intro l; simp
  | succ n ih =>
    intro l
    cases l with
    | nil => simp
    | cons x l =>
      rw [List.take_succ_cons, List.sum_cons, List.sum_cons]
      have := ih l
      omega

theorem build_row_length_of (P : PaletteTable) (colors : List Nat) (width : Int) (py : Nat)
    (hP : ∀ c, c < 256 →
      ((P.PALETTE.getD c []).take (P.PALETTE_LEN.getD c 0)).length = P.PALETTE_LEN.getD c 0)
    (hcol : ∀ j, colors.getD j 0 < 256) :
    (build_row P colors width py).length = (row_copy_lengths P colors width py).sum + 1 := by
  unfold build_row row_copy_lengths
  rw [foldl_append_flatMap, List.nil_append, List.length_append, List.length_flatMap]
  refine congrArg (fun s => s + 1) (congrArg List.sum (List.map_congr_left ?_))
  intro px _
  exact hP _ (hcol _)

/-- The bytes of a row: what the copies of lines 165-167 bring, then the line
terminator. -/
theorem build_row_length (colors : List Nat) (width : Int) (py : Nat)
    (hcol : ∀ j, colors.getD j 0 < 256) :
    (build_row init_palette colors width py).length =
      (row_copy_lengths init_palette colors width py).sum + 1 :=
  build_row_length_of init_palette colors width py
    (fun c hc => by rw [palette_copy c hc, palette_len_get c hc]) hcol

theorem row_copy_lengths_bounds (colors : List Nat) (width height : Int) (py : Nat) (a : Nat)
    (hw0 : 0 ≤ width) (hw : width ≤ INT_MAX) (hh : height ≤ INT_MAX)
    (hlen : colors.length = width.toNat * height.toNat) (hpy : py < height.toNat)
    (hcol : ∀ c ∈ colors, c < 256 ∧ a ≤ 13 + decimal_digits c) :
    width.toNat * a ≤ (row_copy_lengths init_palette colors width py).sum ∧
      (row_copy_lengths init_palette colors width py).sum ≤ width.toNat * 16 := by
  have hh1 := hh
  have hw1 := hw
  unfold INT_MAX at hh1 hw1
  have h := sum_map_bounds
    (fun px => init_palette.PALETTE_LEN.getD (colors.getD (cell_index width py px) 0) 0) a 16
    (List.range width.toNat) (fun px hpx => by
      have hpx1 : px < width.toNat := List.mem_range.mp hpx
      obtain ⟨_, _, hlt⟩ := grid_index width.toNat height.toNat py px hpx1 hpy
      have hidx : cell_index width py px = py * width.toNat + px :=
        cell_index_eq width py px hw0 hw (by omega) (by omega)
      have hin : py * width.toNat + px < colors.length := by rw [hlen]; exact hlt
      have hget : colors.getD (py * width.toNat + px) 0 = colors[py * width.toNat + px] := by
        simp [List.getD, List.getElem?_eq_getElem hin]
      have hc := hcol _ (List.getElem_mem hin)
      show a ≤ init_palette.PALETTE_LEN.getD (colors.getD (cell_index width py px) 0) 0 ∧
        init_palette.PALETTE_LEN.getD (colors.getD (cell_index width py px) 0) 0 ≤ 16
      rw [hidx, hget, palette_len_eq _ hc.1]
      have := decimal_digits_bounds colors[py * width.toNat + px]
      omega)
  simpa [row_copy_lengths] using h

theorem row_buf_cap_eq (width : Int) (hw0 : 0 ≤ width) (hw : width ≤ INT_MAX) :
    row_buf_cap width = width.toNat * 16 + 1 := by
  unfold INT_MAX at hw
  unfold row_buf_cap
  rw [init_palette_max_len]
  have e1 : to_size_t width = width.toNat := by
    have := to_size_t_of_range width hw0 (by omega); omega
  rw [e1]
  have e2 : to_size_t ((width.toNat : Int) * ((16 : Nat) : Int)) = width.toNat * 16 := by
    rw [← Nat.cast_mul]
    exact to_size_t_natCast _ (by omega)
  rw [e2]
  have e3 : ((width.toNat * 16 : Nat) : Int) + 1 = ((width.toNat * 16 + 1 : Nat) : Int) := by
    push_cast; rfl
  rw [e3]
  exact to_size_t_natCast _ (by omega)

/-- C19: for an `int` `width > 0` and a grid of `width * height` colour indices
in `0 .. 255`, the bytes copied into `row_buf` for a row are the sum of
`PALETTE_LEN[color]` over the row plus 1 for the line terminator; this is at
most `row_buf_cap = width * max_palette_len + 1` (computed without overflow,
`max_palette_len` being the value `init_palette` returns), and after each copy
the write position is still below `row_buf_cap`. -/
theorem row_buf_never_overflows (colors : List Nat) (width height : Int) (py : Nat)
    (hw0 : 0 < width) (hw : width ≤ INT_MAX) (hh : height ≤ INT_MAX)
    (hlen : colors.length = width.toNat * height.toNat) (hpy : (py : Int) < height)
    (hcol : ∀ c ∈ colors, c < 256) :
    (build_row init_palette colors width py).length =
      (row_copy_lengths init_palette colors width py).sum + 1 ∧
    (row_copy_lengths init_palette colors width py).sum + 1 ≤ row_buf_cap width ∧
    row_buf_cap width = width.toNat * init_palette.max_len + 1 ∧
    (∀ n, ((row_copy_lengths init_palette colors width py).take n).sum < row_buf_cap width) := by
  have hb := row_copy_lengths_bounds colors width height py 0 (le_of_lt hw0) hw hh hlen
    (by omega) (fun c hc => ⟨hcol c hc, by omega⟩)
  have hcap := row_buf_cap_eq width (le_of_lt hw0) hw
  refine ⟨build_row_length colors width py (getD_lt_of_forall colors hcol), ?_, ?_, ?_⟩
  · rw [hcap]; omega
  · rw [hcap, init_palette_max_len]
  · intro n
    have := sum_take_le_sum n (row_copy_lengths init_palette colors width py)
    rw [hcap]; omega

theorem row_buf_never_overflows_witness :
    (build_row init_palette [255, 100, 7, 16, 216, 99] 3 1).length =
      (row_copy_lengths init_palette [255, 100, 7, 16, 216, 99] 3 1).sum + 1 ∧
    (row_copy_lengths init_palette [255, 100, 7, 16, 216, 99] 3 1).sum + 1 ≤ row_buf_cap 3 ∧
    row_buf_cap 3 = (3 : Int).toNat * init_palette.max_len + 1 ∧
    (∀ n, ((row_copy_lengths init_palette [255, 100, 7, 16, 216, 99] 3 1).take n).sum <
      row_buf_cap 3) :=
  row_buf_never_overflows [255, 100, 7, 16, 216, 99] 3 2 1 (by decide) (by decide) (by decide)
    (by decide) (by decide) (by decide)

/-- C12, refuted as stated: the quantizer produces the indices 16 and 100
(`iteration_to_color 1 1` and `iteration_to_color 83 200`), and their entries
have 15 and 16 bytes. -/
theorem palette_lengths_differ :
    iteration_to_color 1 1 = 16 ∧ iteration_to_color 83 200 = 100 ∧
    init_palette.PALETTE_LEN.getD 16 0 = 15 ∧ init_palette.PALETTE_LEN.getD 100 0 = 16 ∧
    init_palette.PALETTE_LEN.getD 16 0 ≠ init_palette.PALETTE_LEN.getD 100 0 := by
  have h16 : init_palette.PALETTE_LEN.getD 16 0 = 15 := by
    rw [palette_len_eq 16 (by decide)]; decide
  have h100 : init_palette.PALETTE_LEN.getD 100 0 = 16 := by
    rw [palette_len_eq 100 (by decide)]; decide
  refine ⟨by decide, by decide, h16, h100, ?_⟩
  rw [h16, h100]
  decide

theorem iteration_to_color_range (n max_iter : Int) (h0 : 0 ≤ n) (hmax : max_iter ≤ INT_MAX) :
    16 ≤ iteration_to_color n max_iter ∧ iteration_to_color n max_iter ≤ 216 := by
  by_cases h : max_iter ≤ n
  · rw [iteration_to_color_interior n max_iter h]; omega
  · have := iteration_to_color_ramp n max_iter hmax h0 (by omega)
    omega

/-- C12, amended: the entries have a bounded length, not one fixed length.  A
colour index `c` the quantizer produces lies in `16 .. 216` and `PALETTE_LEN[c]`
is 15 for `c < 100` and 16 for `c >= 100`; two indices of the table with the
same number of decimal digits have the same length; and a row of a grid whose
cells lie in `16 .. 216` has between `width * 15 + 1` and `width * 16 + 1`
bytes. -/
theorem palette_lengths_bounded (n max_iter : Int) (c1 c2 : Nat) (colors : List Nat)
    (width height : Int) (py : Nat)
    (h0 : 0 ≤ n) (hmax : max_iter ≤ INT_MAX)
    (hc1 : c1 < 256) (hc2 : c2 < 256) (hdig : decimal_digits c1 = decimal_digits c2)
    (hw0 : 0 < width) (hw : width ≤ INT_MAX) (hh : height ≤ INT_MAX)
    (hlen : colors.length = width.toNat * height.toNat) (hpy : (py : Int) < height)
    (hcol : ∀ c ∈ colors, 16 ≤ c ∧ c ≤ 216) :
    (16 ≤ iteration_to_color n max_iter ∧ iteration_to_color n max_iter ≤ 216) ∧
    init_palette.PALETTE_LEN.getD (iteration_to_color n max_iter) 0 =
      (if iteration_to_color n max_iter < 100 then 15 else 16) ∧
    init_palette.PALETTE_LEN.getD c1 0 = init_palette.PALETTE_LEN.getD c2 0 ∧
    width.toNat * 15 + 1 ≤ (build_row init_palette colors width py).length ∧
    (build_row init_palette colors width py).length ≤ width.toNat * 16 + 1 := by
  have hr := iteration_to_color_range n max_iter h0 hmax
  have hcol1 : ∀ c ∈ colors, c < 256 := fun c hc => by have := hcol c hc; omega
  have hb := row_copy_lengths_bounds colors width height py 15 (le_of_lt hw0) hw hh hlen
    (by omega) (fun c hc => by
      have := hcol c hc
      refine ⟨by omega, ?_⟩
      unfold decimal_digits
      split
      · omega
      · split <;> omega)
  refine ⟨hr, ?_, ?_, ?_, ?_⟩
  · rw [palette_len_eq _ (by omega)]
    unfold decimal_digits
    split_ifs <;> omega
  · rw [palette_len_eq c1 hc1, palette_len_eq c2 hc2, hdig]
  · rw [build_row_length colors width py (getD_lt_of_forall colors hcol1)]; omega
  · rw [build_row_length colors width py (getD_lt_of_forall colors hcol1)]; omega

theorem palette_lengths_bounded_witness :
    (16 ≤ iteration_to_color 83 200 ∧ iteration_to_color 83 200 ≤ 216) ∧
    init_palette.PALETTE_LEN.getD (iteration_to_color 83 200) 0 =
      (if iteration_to_color 83 200 < 100 then 15 else 16) ∧
    init_palette.PALETTE_LEN.getD 17 0 = init_palette.PALETTE_LEN.getD 99 0 ∧
    (3 : Int).toNat * 15 + 1 ≤ (build_row init_palette [16, 100, 17, 16, 216, 99] 3 1).length ∧
    (build_row init_palette [16, 100, 17, 16, 216, 99] 3 1).length ≤ (3 : Int).toNat * 16 + 1 :=
  palette_lengths_bounded 83 200 17 99 [16, 100, 17, 16, 216, 99] 3 2 1 (by decide)
    (by decide) (by decide) (by decide) (by decide) (by decide) (by decide) (by decide)
    (by decide) (by decide) (by decide)

/-! ## Ownership of the cells -/

theorem grid_size_eq (width height : Int) (hw0 : 0 ≤ width) (hw : width ≤ INT_MAX)
    (hh0 : 0 ≤ height) (hh : height ≤ INT_MAX) :
    grid_size width height = width.toNat * height.toNat := by
  unfold INT_MAX at hw hh
  have hW : width.toNat ≤ 2147483647 := by omega
  have hH : height.toNat ≤ 2147483647 := by omega
  have hprod : width.toNat * height.toNat ≤ 2147483647 * 2147483647 := Nat.mul_le_mul hW hH
  have e1 : to_size_t width = width.toNat := by
    have := to_size_t_of_range width hw0 (by omega); omega
  have e2 : to_size_t height = height.toNat := by
    have := to_size_t_of_range height hh0 (by omega); omega
  unfold grid_size
  rw [e1, e2, ← Nat.cast_mul]
  exact to_size_t_natCast _ (by omega)

theorem flatMap_rows_eq_range (W : Nat) :
    ∀ H : Nat, (List.range H).flatMap (fun py => (List.range W).map (fun px => py * W + px)) =
      List.range (W * H) := by
  intro H
  induction H with
  | zero => simp
  | succ H ih =>
    rw [List.range_succ, List.flatMap_append, ih, Nat.mul_succ, List.range_add]
    simp [Nat.mul_comm]

theorem store_indices_eq (width : Int) (rows : List Nat) (hw0 : 0 ≤ width)
    (hw : width ≤ INT_MAX) (hrows : ∀ py ∈ rows, py ≤ 2147483647) :
    store_indices width rows =
      rows.flatMap (fun py => (List.range width.toNat).map (fun px => py * width.toNat + px)) := by
  unfold store_indices
  apply List.flatMap_congr
  intro py hpy
  apply List.map_congr_left
  intro px hpx
  have hpx1 : px < width.toNat := List.mem_range.mp hpx
  have hw1 := hw
  unfold INT_MAX at hw1
  exact cell_index_eq width py px hw0 hw (hrows py hpy) (by omega)

theorem store_indices_row (width : Int) (py : Nat) (hw0 : 0 ≤ width)
    (hw : width ≤ INT_MAX) (hpy : py ≤ 2147483647) :
    store_indices width [py] = List.range' (py * width.toNat) width.toNat := by
  rw [store_indices_eq width [py] hw0 hw (fun p hp => by
    rw [List.mem_singleton.mp hp]; exact hpy), List.range'_eq_map_range]
  simp

/-- C18: for `int` values `width, height > 0`.  The index line 144 stores into
for pixel `(px, py)` is `py * width + px`, inside the `width * height` cells of
the grid; the map from pixels to cells is one-to-one and onto; the stores of
the loop, rows taken in order, visit the cells `0 .. width * height - 1` each
exactly once; the stores of row `py` are the cells `py * width ..
py * width + width - 1`, and two different rows share no cell. -/
theorem grid_cells_disjoint_ownership (width height : Int)
    (hw0 : 0 < width) (hw : width ≤ INT_MAX) (hh0 : 0 < height) (hh : height ≤ INT_MAX) :
    grid_size width height = width.toNat * height.toNat ∧
    (∀ (A : DoubleOps) (xs : List A.F) (y0 : A.F) (max_iter : Int) (py px : Nat)
        (colors : List Nat),
      compute_pixel A xs y0 width max_iter py colors px =
        (escape_time A (xs.getD px A.zero) y0 max_iter).map (fun iter =>
          colors.set (cell_index width py px) (iteration_to_color iter max_iter))) ∧
    (∀ py px, py < height.toNat → px < width.toNat →
      cell_index width py px = py * width.toNat + px ∧
      cell_index width py px < grid_size width height) ∧
    (∀ py px py1 px1, py < height.toNat → px < width.toNat →
      py1 < height.toNat → px1 < width.toNat →
      cell_index width py px = cell_index width py1 px1 → py = py1 ∧ px = px1) ∧
    (∀ j, j < grid_size width height →
      ∃ py px, py < height.toNat ∧ px < width.toNat ∧ cell_index width py px = j) ∧
    store_indices width (List.range height.toNat) = List.range (grid_size width height) ∧
    (∀ j, j < grid_size width height →
      (store_indices width (List.range height.toNat)).count j = 1) ∧
    (∀ py, py < height.toNat →
      store_indices width [py] = List.range' (py * width.toNat) width.toNat) ∧
    (∀ py py1, py < height.toNat → py1 < height.toNat → py ≠ py1 →
      ∀ j, j ∈ store_indices width [py] → j ∉ store_indices width [py1]) := by
  have hw1 := hw
  have hh1 := hh
  unfold INT_MAX at hw1 hh1
  have hsize := grid_size_eq width height (le_of_lt hw0) hw (le_of_lt hh0) hh
  have hW : 0 < width.toNat := by omega
  have hcell : ∀ py px, py < height.toNat → px < width.toNat →
      cell_index width py px = py * width.toNat + px := fun py px hpy hpx =>
    cell_index_eq width py px (le_of_lt hw0) hw (by omega) (by omega)
  have hall : store_indices width (List.range height.toNat) =
      List.range (grid_size width height) := by
    rw [store_indices_eq width _ (le_of_lt hw0) hw (fun py hpy => by
      have := List.mem_range.mp hpy; omega), flatMap_rows_eq_range, hsize]
  have hrow : ∀ py, py < height.toNat →
      store_indices width [py] = List.range' (py * width.toNat) width.toNat :=
    fun py hpy => store_indices_row width py (le_of_lt hw0) hw (by omega)
  refine ⟨hsize, fun _ _ _ _ _ _ _ => rfl, ?_, ?_, ?_, hall, ?_, hrow, ?_⟩
  · intro py px hpy hpx
    refine ⟨hcell py px hpy hpx, ?_⟩
    rw [hcell py px hpy hpx, hsize]
    exact (grid_index width.toNat height.toNat py px hpx hpy).2.2
  · intro py px py1 px1 hpy hpx hpy1 hpx1 heq
    rw [hcell py px hpy hpx, hcell py1 px1 hpy1 hpx1] at heq
    obtain ⟨d, m, _⟩ := grid_index width.toNat height.toNat py px hpx hpy
    obtain ⟨d1, m1, _⟩ := grid_index width.toNat height.toNat py1 px1 hpx1 hpy1
    rw [heq] at d m
    exact ⟨d.symm.trans d1, m.symm.trans m1⟩
  · intro j hj
    rw [hsize] at hj
    have hdiv : j / width.toNat < height.toNat :=
      (Nat.div_lt_iff_lt_mul hW).mpr (by rw [Nat.mul_comm]; exact hj)
    have hmod : j % width.toNat < width.toNat := Nat.mod_lt j hW
    refine ⟨j / width.toNat, j % width.toNat, hdiv, hmod, ?_⟩
    rw [hcell _ _ hdiv hmod]
    have := Nat.div_add_mod j width.toNat
    rw [Nat.mul_comm] at this
    exact this
  · intro j hj
    rw [hall]
    exact List.count_eq_one_of_mem (List.nodup_range _) (List.mem_range.mpr hj)
  · intro py py1 hpy hpy1 hne j hj hj1
    rw [hrow py hpy] at hj
    rw [hrow py1 hpy1] at hj1
    have a := List.mem_range'_1.mp hj
    have b := List.mem_range'_1.mp hj1
    have e := (div_eq_iff_row width.toNat j py hW).mpr a
    have e1 := (div_eq_iff_row width.toNat j py1 hW).mpr b
    exact hne (e.symm.trans e1)

theorem grid_cells_disjoint_ownership_witness :
    grid_size 3 2 = (3 : Int).toNat * (2 : Int).toNat ∧
    (∀ (A : DoubleOps) (xs : List A.F) (y0 : A.F) (max_iter : Int) (py px : Nat)
        (colors : List Nat),
      compute_pixel A xs y0 3 max_iter py colors px =
        (escape_time A (xs.getD px A.zero) y0 max_iter).map (fun iter =>
          colors.set (cell_index 3 py px) (iteration_to_color iter max_iter))) ∧
    (∀ py px, py < (2 : Int).toNat → px < (3 : Int).toNat →
      cell_index 3 py px = py * (3 : Int).toNat + px ∧
      cell_index 3 py px < grid_size 3 2) ∧
    (∀ py px py1 px1, py < (2 : Int).toNat → px < (3 : Int).toNat →
      py1 < (2 : Int).toNat → px1 < (3 : Int).toNat →
      cell_index 3 py px = cell_index 3 py1 px1 → py = py1 ∧ px = px1) ∧
    (∀ j, j < grid_size 3 2 →
      ∃ py px, py < (2 : Int).toNat ∧ px < (3 : Int).toNat ∧ cell_index 3 py px = j) ∧
    store_indices 3 (List.range (2 : Int).toNat) = List.range (grid_size 3 2) ∧
    (∀ j, j < grid_size 3 2 →
      (store_indices 3 (List.range (2 : Int).toNat)).count j = 1) ∧
    (∀ py, py < (2 : Int).toNat →
      store_indices 3 [py] = List.range' (py * (3 : Int).toNat) (3 : Int).toNat) ∧
    (∀ py py1, py < (2 : Int).toNat → py1 < (2 : Int).toNat → py ≠ py1 →
      ∀ j, j ∈ store_indices 3 [py] → j ∉ store_indices 3 [py1]) :=
  grid_cells_disjoint_ownership 3 2 (by decide) (by decide) (by decide) (by decide)
/-! ## Independence of the order of evaluation -/

theorem mem_all_pixels (W H : Nat) (p : Nat × Nat) :
    p ∈ all_pixels W H ↔ p.1 < H ∧ p.2 < W := by
  unfold all_pixels
  constructor
  · intro h
    obtain ⟨py, hpy, hp⟩ := List.mem_flatMap.mp h
    obtain ⟨px, hpx, rfl⟩ := List.mem_map.mp hp
    exact ⟨List.mem_range.mp hpy, List.mem_range.mp hpx⟩
  · rintro ⟨h1, h2⟩
    exact List.mem_flatMap.mpr ⟨p.1, List.mem_range.mpr h1,
      List.mem_map.mpr ⟨p.2, List.mem_range.mpr h2, rfl⟩⟩

/-- The stores of the pixels `sched`, in any order and with any repetition: a
cell of a pixel in `sched` holds that pixel's value, every other cell is
untouched. -/
theorem foldl_pixels (g : Nat → Nat → Nat) (w : Nat) (hw : 0 < w) :
    ∀ (sched : List (Nat × Nat)) (cs : List Nat) (j : Nat), (∀ p ∈ sched, p.2 < w) →
      (sched.foldl (fun c p => c.set (p.1 * w + p.2) (g p.1 p.2)) cs)[j]? =
        if (j / w, j % w) ∈ sched then (cs[j]?).map (fun _ => g (j / w) (j % w)) else cs[j]? := by
  intro sched
  induction sched with
  | nil => intro cs j _; simp
  | cons p sched ih =>
    intro cs j hp
    have hp2 : p.2 < w := hp p (List.mem_cons_self p sched)
    rw [List.foldl_cons, ih _ j (fun q hq => hp q (List.mem_cons_of_mem p hq)),
      List.getElem?_set']
    by_cases hj : p.1 * w + p.2 = j
    · have hdiv : j / w = p.1 := by
        rw [← hj]; exact (div_eq_iff_row w _ p.1 hw).mpr ⟨by omega, by omega⟩
      have hmod : j % w = p.2 := by
        have := Nat.div_add_mod j w
        rw [hdiv, Nat.mul_comm] at this
        omega
      have hpe : (j / w, j % w) = p := by rw [hdiv, hmod]
      rw [if_pos hj, hpe]
      rw [if_pos (List.mem_cons_self p sched)]
      by_cases hmem : p ∈ sched
      · rw [if_pos hmem]
        cases cs[j]? <;> rfl
      · rw [if_neg hmem, hdiv, hmod]
        cases cs[j]? <;> rfl
    · have hne : (j / w, j % w) ≠ p := by
        intro e
        apply hj
        have h1 : p.1 = j / w := by rw [← e]
        have h2 : p.2 = j % w := by rw [← e]
        rw [h1, h2, Nat.mul_comm]
        exact Nat.div_add_mod j w
      rw [if_neg hj]
      have : ((j / w, j % w) ∈ p :: sched) ↔ (j / w, j % w) ∈ sched := by
        simp [List.mem_cons, hne]
      simp only [this]

theorem compute_schedule_eq (A : DoubleOps) (xs ys : List A.F) (width max_iter : Int)
    (hw0 : 0 < width) (hw : width ≤ INT_MAX) (hpos : 0 < max_iter) (hmax : max_iter ≤ INT_MAX)
    (sched : List (Nat × Nat))
    (hsched : ∀ p ∈ sched, p.1 ≤ 2147483647 ∧ p.2 ≤ 2147483647) (colors : List Nat) :
    compute_schedule A xs ys width max_iter sched colors =
      some (sched.foldl (fun c p => c.set (p.1 * width.toNat + p.2)
        (pixel_color A (xs.getD p.2 A.zero) (ys.getD p.1 A.zero) max_iter)) colors) := by
  unfold compute_schedule
  apply foldlM_eq_some_foldl
  intro p hp c
  exact compute_pixel_eq A xs _ width max_iter p.1 p.2 c (le_of_lt hw0) hw hpos hmax
    (hsched p hp).1 (hsched p hp).2

/-- A list of `n` cells whose cell `j` holds `f j` is the list of the `f j`. -/
theorem eq_map_range_of_getElem? (f : Nat → Nat) (n : Nat) (l : List Nat)
    (h : ∀ j, l[j]? = if j < n then some (f j) else none) :
    l = (List.range n).map f := by
  apply List.ext_getElem?
  intro j
  rw [h j, List.getElem?_map]
  by_cases hj : j < n
  · rw [if_pos hj, List.getElem?_range hj]; rfl
  · rw [if_neg hj, List.getElem?_eq_none (by simpa using Nat.le_of_not_lt hj)]; rfl

/-- C13: for `int` values `width, height, max_iter > 0`, every arithmetic and
every viewport.  Whatever the order `rows` in which the rows `0 .. height - 1`
are evaluated (any way of dealing the rows to workers, run one after the
other), and whatever the order `sched` in which the pixels are evaluated (any
interleaving of workers pixel by pixel), the Color Grid is the one the
sequential loop gives, cell `py * width + px` being a function of `xs[px]`,
`ys[py]` and `max_iter` only, and the run emits the same calls and bytes with
the same exit code. -/
theorem computation_order_independent (A : DoubleOps) (width height max_iter : Int)
    (center_x center_y zoom : A.F) (write : Nat → Nat → Int)
    (rows : List Nat) (sched : List (Nat × Nat))
    (hw0 : 0 < width) (hw : width ≤ INT_MAX) (hh0 : 0 < height) (hh : height ≤ INT_MAX)
    (hpos : 0 < max_iter) (hmax : max_iter ≤ INT_MAX)
    (hrows : rows.Perm (List.range height.toNat))
    (hsched : sched.Perm (all_pixels width.toNat height.toNat)) :
    compute_colors A (coordinate_tables A width height center_x center_y zoom).xs
        (coordinate_tables A width height center_x center_y zoom).ys width height max_iter =
      some (color_grid A width height max_iter center_x center_y zoom) ∧
    compute_rows A (coordinate_tables A width height center_x center_y zoom).xs
        (coordinate_tables A width height center_x center_y zoom).ys width max_iter rows
        (List.replicate (grid_size width height) 0) =
      some (color_grid A width height max_iter center_x center_y zoom) ∧
    compute_schedule A (coordinate_tables A width height center_x center_y zoom).xs
        (coordinate_tables A width height center_x center_y zoom).ys width max_iter sched
        (List.replicate (grid_size width height) 0) =
      some (color_grid A width height max_iter center_x center_y zoom) ∧
    (∀ py px, py < height.toNat → px < width.toNat →
      (color_grid A width height max_iter center_x center_y zoom)[py * width.toNat + px]? =
        some (pixel_color A
          ((coordinate_tables A width height center_x center_y zoom).xs.getD px A.zero)
          ((coordinate_tables A width height center_x center_y zoom).ys.getD py A.zero)
          max_iter)) ∧
    render_scheduled A width height max_iter center_x center_y zoom sched write =
      render A width height max_iter center_x center_y zoom write := by
  have hw1 := hw
  have hh1 := hh
  unfold INT_MAX at hw1 hh1
  have hW : 0 < width.toNat := by omega
  have hsize := grid_size_eq width height (le_of_lt hw0) hw (le_of_lt hh0) hh
  have hseq := compute_colors_eq A (coordinate_tables A width height center_x center_y zoom).xs
    (coordinate_tables A width height center_x center_y zoom).ys width height max_iter
    hw0 hw hh0 hh hpos hmax
  have hdivlt : ∀ j, j < width.toNat * height.toNat → j / width.toNat < height.toNat :=
    fun j hj => (Nat.div_lt_iff_lt_mul hW).mpr (by rw [Nat.mul_comm]; exact hj)
  have hrowsgrid : compute_rows A (coordinate_tables A width height center_x center_y zoom).xs
      (coordinate_tables A width height center_x center_y zoom).ys width max_iter rows
      (List.replicate (grid_size width height) 0) =
      some (color_grid A width height max_iter center_x center_y zoom) := by
    rw [compute_rows_eq A _ _ width max_iter hw0 hw hpos hmax rows (fun py hpy => by
      have := List.mem_range.mp (hrows.mem_iff.mp hpy); omega), hsize]
    refine congrArg some (eq_map_range_of_getElem? _ _ _ (fun j => ?_))
    rw [foldl_rows (fun py px => pixel_color A
      ((coordinate_tables A width height center_x center_y zoom).xs.getD px A.zero)
      ((coordinate_tables A width height center_x center_y zoom).ys.getD py A.zero) max_iter)
      width.toNat hW]
    by_cases hj : j < width.toNat * height.toNat
    · rw [if_pos (hrows.mem_iff.mpr (List.mem_range.mpr (hdivlt j hj))), if_pos hj,
        List.getElem?_replicate_of_lt hj]
      rfl
    · rw [if_neg hj, List.getElem?_eq_none (by simpa using Nat.le_of_not_lt hj)]
      split <;> rfl
  have hschedgrid : compute_schedule A
      (coordinate_tables A width height center_x center_y zoom).xs
      (coordinate_tables A width height center_x center_y zoom).ys width max_iter sched
      (List.replicate (grid_size width height) 0) =
      some (color_grid A width height max_iter center_x center_y zoom) := by
    have hin : ∀ p ∈ sched, p.1 < height.toNat ∧ p.2 < width.toNat := fun p hp =>
      (mem_all_pixels _ _ p).mp (hsched.mem_iff.mp hp)
    rw [compute_schedule_eq A _ _ width max_iter hw0 hw hpos hmax sched (fun p hp => by
      have := hin p hp; omega), hsize]
    refine congrArg some (eq_map_range_of_getElem? _ _ _ (fun j => ?_))
    rw [foldl_pixels (fun py px => pixel_color A
      ((coordinate_tables A width height center_x center_y zoom).xs.getD px A.zero)
      ((coordinate_tables A width height center_x center_y zoom).ys.getD py A.zero) max_iter)
      width.toNat hW sched _ j (fun p hp => (hin p hp).2)]
    by_cases hj : j < width.toNat * height.toNat
    · rw [if_pos (hsched.mem_iff.mpr ((mem_all_pixels _ _ _).mpr
        ⟨hdivlt j hj, Nat.mod_lt j hW⟩)), if_pos hj, List.getElem?_replicate_of_lt hj]
      rfl
    · rw [if_neg hj, List.getElem?_eq_none (by simpa using Nat.le_of_not_lt hj)]
      split <;> rfl
  refine ⟨hseq, hrowsgrid, hschedgrid, ?_, ?_⟩
  · intro py px hpy hpx
    obtain ⟨hdiv, hmod, hlt⟩ := grid_index width.toNat height.toNat py px hpx hpy
    unfold color_grid
    rw [List.getElem?_map, List.getElem?_range hlt]
    show some (grid_cell A _ _ width max_iter (py * width.toNat + px)) = _
    unfold grid_cell
    rw [hdiv, hmod]
  · unfold render_scheduled render
    simp only []
    rw [hschedgrid, hseq]
    rfl

theorem computation_order_independent_witness :
    compute_colors exactOps (coordinate_tables exactOps 2 2 (0 : ℚ) (0 : ℚ) (2 : ℚ)).xs
        (coordinate_tables exactOps 2 2 (0 : ℚ) (0 : ℚ) (2 : ℚ)).ys 2 2 3 =
      some (color_grid exactOps 2 2 3 (0 : ℚ) (0 : ℚ) (2 : ℚ)) ∧
    compute_rows exactOps (coordinate_tables exactOps 2 2 (0 : ℚ) (0 : ℚ) (2 : ℚ)).xs
        (coordinate_tables exactOps 2 2 (0 : ℚ) (0 : ℚ) (2 : ℚ)).ys 2 3 [1, 0]
        (List.replicate (grid_size 2 2) 0) =
      some (color_grid exactOps 2 2 3 (0 : ℚ) (0 : ℚ) (2 : ℚ)) ∧
    compute_schedule exactOps (coordinate_tables exactOps 2 2 (0 : ℚ) (0 : ℚ) (2 : ℚ)).xs
        (coordinate_tables exactOps 2 2 (0 : ℚ) (0 : ℚ) (2 : ℚ)).ys 2 3
        [(1, 1), (0, 0), (1, 0), (0, 1)] (List.replicate (grid_size 2 2) 0) =
      some (color_grid exactOps 2 2 3 (0 : ℚ) (0 : ℚ) (2 : ℚ)) ∧
    (∀ py px, py < (2 : Int).toNat → px < (2 : Int).toNat →
      (color_grid exactOps 2 2 3 (0 : ℚ) (0 : ℚ) (2 : ℚ))[py * (2 : Int).toNat + px]? =
        some (pixel_color exactOps
          ((coordinate_tables exactOps 2 2 (0 : ℚ) (0 : ℚ) (2 : ℚ)).xs.getD px exactOps.zero)
          ((coordinate_tables exactOps 2 2 (0 : ℚ) (0 : ℚ) (2 : ℚ)).ys.getD py exactOps.zero)
          3)) ∧
    render_scheduled exactOps 2 2 3 (0 : ℚ) (0 : ℚ) (2 : ℚ) [(1, 1), (0, 0), (1, 0), (0, 1)]
        (fun _ n => (n : Int)) =
      render exactOps 2 2 3 (0 : ℚ) (0 : ℚ) (2 : ℚ) (fun _ n => (n : Int)) :=
  computation_order_independent exactOps 2 2 3 (0 : ℚ) (0 : ℚ) (2 : ℚ) (fun _ n => (n : Int))
    [1, 0] [(1, 1), (0, 0), (1, 0), (0, 1)] (by decide) (by decide) (by decide) (by decide)
    (by decide) (by decide) (by decide) (by decide)
/-! ## The loop and the orbit, in exact arithmetic -/

theorem loop_iterate_succ (A : DoubleOps) (x0 y0 : A.F) (k : Nat) :
    loop_iterate A x0 y0 (k + 1) = loop_body A x0 y0 (loop_iterate A x0 y0 k) := by
  unfold loop_iterate
  exact Function.iterate_succ_apply' _ _ _

theorem loop_iterate_iter (A : DoubleOps) (x0 y0 : A.F) :
    ∀ k : Nat, (k : Int) ≤ INT_MAX → (loop_iterate A x0 y0 k).iter = (k : Int) := by
  intro k
  induction k with
  | zero => intro _; rfl
  | succ k ih =>
    intro hk
    have hk1 : (k : Int) ≤ INT_MAX := by push_cast at hk; omega
    rw [loop_iterate_succ, loop_body_iter A x0 y0 _ (by rw [ih hk1]; omega)
      (by rw [ih hk1]; push_cast at hk; omega), ih hk1]
    push_cast
    rfl

/-- The loop exits in the state reached after `k` passes when the test holds
in the states reached after fewer passes and fails after `k`. -/
theorem escape_loop_eq_iterate (A : DoubleOps) (x0 y0 : A.F) (max_iter : Int) :
    ∀ (k : Nat) (s : LoopState A.F),
      (∀ j, j < k → loop_cond A max_iter ((loop_body A x0 y0)^[j] s) = true) →
      loop_cond A max_iter ((loop_body A x0 y0)^[k] s) = false →
      ∀ fuel, k ≤ fuel → escape_loop A x0 y0 max_iter fuel s = some ((loop_body A x0 y0)^[k] s) := by
  intro k
  induction k with
  | zero =>
    intro s _ hk fuel _
    exact escape_loop_of_cond_false A x0 y0 max_iter fuel s hk
  | succ k ih =>
    intro s hlt hk fuel hf
    obtain ⟨f, rfl⟩ : ∃ f, fuel = f + 1 := ⟨fuel - 1, by omega⟩
    have h0 : loop_cond A max_iter s = true := hlt 0 (by omega)
    simp only [escape_loop, h0, if_true]
    rw [Function.iterate_succ_apply]
    exact ih (loop_body A x0 y0 s)
      (fun j hj => by
        have := hlt (j + 1) (by omega)
        rwa [Function.iterate_succ_apply] at this)
      (by rwa [Function.iterate_succ_apply] at hk) f (by omega)

theorem exact_state_succ (x0 y0 : ℚ) (k : Nat) :
    exact_state x0 y0 (k + 1) =
      { x := (exact_state x0 y0 k).x2 - (exact_state x0 y0 k).y2 + x0
        y := 2 * (exact_state x0 y0 k).x * (exact_state x0 y0 k).y + y0
        x2 := ((exact_state x0 y0 k).x2 - (exact_state x0 y0 k).y2 + x0) *
          ((exact_state x0 y0 k).x2 - (exact_state x0 y0 k).y2 + x0)
        y2 := (2 * (exact_state x0 y0 k).x * (exact_state x0 y0 k).y + y0) *
          (2 * (exact_state x0 y0 k).x * (exact_state x0 y0 k).y + y0)
        iter := wrap_int ((exact_state x0 y0 k).iter + 1) } := by
  unfold exact_state
  rw [loop_iterate_succ]
  rfl

/-- In exact arithmetic the locals after `k` passes are the `k`-th point of the
orbit and the squares of its parts. -/
theorem exact_state_orbit (x0 y0 : ℚ) :
    ∀ k : Nat,
      (exact_state x0 y0 k).x = (orbit x0 y0 k).1 ∧
      (exact_state x0 y0 k).y = (orbit x0 y0 k).2 ∧
      (exact_state x0 y0 k).x2 = (exact_state x0 y0 k).x * (exact_state x0 y0 k).x ∧
      (exact_state x0 y0 k).y2 = (exact_state x0 y0 k).y * (exact_state x0 y0 k).y := by
  intro k
  induction k with
  | zero =>
    refine ⟨rfl, rfl, ?_, ?_⟩
    · show (0 : ℚ) = 0 * 0
      norm_num
    · show (0 : ℚ) = 0 * 0
      norm_num
  | succ k ih =>
    obtain ⟨hx, hy, hx2, hy2⟩ := ih
    rw [exact_state_succ]
    refine ⟨?_, ?_, rfl, rfl⟩
    · show (exact_state x0 y0 k).x2 - (exact_state x0 y0 k).y2 + x0 =
        (orbit_step x0 y0 (orbit x0 y0 k)).1
      rw [hx2, hy2, hx, hy]
      rfl
    · show 2 * (exact_state x0 y0 k).x * (exact_state x0 y0 k).y + y0 =
        (orbit_step x0 y0 (orbit x0 y0 k)).2
      rw [hx, hy]
      rfl

theorem loop_cond_exact (x0 y0 : ℚ) (max_iter : Int) (k : Nat) :
    loop_cond exactOps max_iter (loop_iterate exactOps x0 y0 k) =
      (decide ((exact_state x0 y0 k).x2 + (exact_state x0 y0 k).y2 ≤ 4) &&
        decide ((exact_state x0 y0 k).iter < max_iter)) := rfl

theorem exact_state_norm_sq (x0 y0 : ℚ) (k : Nat) :
    (exact_state x0 y0 k).x2 + (exact_state x0 y0 k).y2 = norm_sq (orbit x0 y0 k) := by
  obtain ⟨hx, hy, hx2, hy2⟩ := exact_state_orbit x0 y0 k
  rw [hx2, hy2, hx, hy]
  rfl

/-- The pair `orbit x0 y0 k` is the complex number `z_k` of the recurrence
`z_0 = 0`, `z_(k+1) = z_k² + c`, and `norm_sq` is its squared modulus. -/
theorem orbit_complex (x0 y0 : ℚ) :
    ∀ k : Nat,
      (⟨((orbit x0 y0 k).1 : ℝ), ((orbit x0 y0 k).2 : ℝ)⟩ : ℂ) =
        (fun z : ℂ => z ^ 2 + ⟨(x0 : ℝ), (y0 : ℝ)⟩)^[k] 0 ∧
      ((norm_sq (orbit x0 y0 k) : ℚ) : ℝ) =
        Complex.normSq ((fun z : ℂ => z ^ 2 + ⟨(x0 : ℝ), (y0 : ℝ)⟩)^[k] 0) := by
  intro k
  have h1 : (⟨((orbit x0 y0 k).1 : ℝ), ((orbit x0 y0 k).2 : ℝ)⟩ : ℂ) =
      (fun z : ℂ => z ^ 2 + ⟨(x0 : ℝ), (y0 : ℝ)⟩)^[k] 0 := by
    induction k with
    | zero =>
      apply Complex.ext <;> simp [orbit]
    | succ k ih =>
      rw [Function.iterate_succ_apply', ← ih]
      apply Complex.ext
      · simp [orbit, orbit_step, pow_two]
      · simp [orbit, orbit_step, pow_two]
        ring
  refine ⟨h1, ?_⟩
  rw [← h1]
  simp [norm_sq, Complex.normSq_apply]

/-- C15: in exact arithmetic, for every `(x0, y0)` and `0 < max_iter <=
INT_MAX`.  After `k` passes the locals satisfy `x + i·y = z_k`, `x2 = x * x`,
`y2 = y * y` (and `iter = k`), where `z_0 = 0`, `z_(k+1) = z_k² + (x0 + i·y0)`
is the recurrence over the complex numbers; and the loop exits in the state
after `n` passes, leaving `iter = n`, where `n` is the least `k >= 0` with
`|z_k|² > 4` or `k = max_iter`. -/
theorem escape_time_is_first_escape (x0 y0 : ℚ) (max_iter : Int)
    (hpos : 0 < max_iter) (hmax : max_iter ≤ INT_MAX) :
    (∀ k : Nat,
      (⟨((exact_state x0 y0 k).x : ℝ), ((exact_state x0 y0 k).y : ℝ)⟩ : ℂ) =
        (fun z : ℂ => z ^ 2 + ⟨(x0 : ℝ), (y0 : ℝ)⟩)^[k] 0 ∧
      (exact_state x0 y0 k).x = (orbit x0 y0 k).1 ∧
      (exact_state x0 y0 k).y = (orbit x0 y0 k).2 ∧
      (exact_state x0 y0 k).x2 = (exact_state x0 y0 k).x * (exact_state x0 y0 k).x ∧
      (exact_state x0 y0 k).y2 = (exact_state x0 y0 k).y * (exact_state x0 y0 k).y ∧
      ((norm_sq (orbit x0 y0 k) : ℚ) : ℝ) =
        Complex.normSq ((fun z : ℂ => z ^ 2 + ⟨(x0 : ℝ), (y0 : ℝ)⟩)^[k] 0) ∧
      ((k : Int) ≤ max_iter → (exact_state x0 y0 k).iter = (k : Int))) ∧
    ∃ n : Nat,
      escape_loop exactOps x0 y0 max_iter max_iter.toNat (loop_init exactOps) =
        some (exact_state x0 y0 n) ∧
      escape_time exactOps x0 y0 max_iter = some (n : Int) ∧
      (4 < norm_sq (orbit x0 y0 n) ∨ (n : Int) = max_iter) ∧
      ∀ j : Nat, j < n → ¬ (4 < norm_sq (orbit x0 y0 j) ∨ (j : Int) = max_iter) := by
  have hiter : ∀ k : Nat, (k : Int) ≤ max_iter → (exact_state x0 y0 k).iter = (k : Int) :=
    fun k hk => loop_iterate_iter exactOps x0 y0 k (by omega)
  constructor
  · intro k
    obtain ⟨hx, hy, hx2, hy2⟩ := exact_state_orbit x0 y0 k
    obtain ⟨hc, hn⟩ := orbit_complex x0 y0 k
    refine ⟨?_, hx, hy, hx2, hy2, hn, hiter k⟩
    rw [hx, hy]
    exact hc
  · have hex : ∃ k : Nat, 4 < norm_sq (orbit x0 y0 k) ∨ (k : Int) = max_iter :=
      ⟨max_iter.toNat, Or.inr (by omega)⟩
    classical
    have hspec := Nat.find_spec hex
    have hmin : ∀ j : Nat, j < Nat.find hex →
        ¬ (4 < norm_sq (orbit x0 y0 j) ∨ (j : Int) = max_iter) := fun j hj => Nat.find_min hex hj
    have hle : Nat.find hex ≤ max_iter.toNat := Nat.find_min' hex (Or.inr (by omega))
    have hrun : escape_loop exactOps x0 y0 max_iter max_iter.toNat (loop_init exactOps) =
        some (exact_state x0 y0 (Nat.find hex)) := by
      apply escape_loop_eq_iterate exactOps x0 y0 max_iter (Nat.find hex) (loop_init exactOps)
      · intro j hj
        show loop_cond exactOps max_iter (loop_iterate exactOps x0 y0 j) = true
        rw [loop_cond_exact, exact_state_norm_sq, hiter j (by omega)]
        have hnot := hmin j hj
        have h1 : norm_sq (orbit x0 y0 j) ≤ 4 := not_lt.mp (fun h => hnot (Or.inl h))
        have h2 : (j : Int) < max_iter := by omega
        simp [h1, h2]
      · show loop_cond exactOps max_iter (loop_iterate exactOps x0 y0 (Nat.find hex)) = false
        rw [loop_cond_exact, exact_state_norm_sq, hiter _ (by omega)]
        rcases hspec with h | h
        · have : ¬ norm_sq (orbit x0 y0 (Nat.find hex)) ≤ 4 := not_le.mpr h
          simp [this]
        · have : ¬ ((Nat.find hex : Nat) : Int) < max_iter := by omega
          simp [this]
      · exact hle
    refine ⟨Nat.find hex, hrun, ?_, hspec, hmin⟩
    unfold escape_time
    rw [hrun]
    exact congrArg some (hiter _ (by omega))

theorem escape_time_is_first_escape_witness :
    (∀ k : Nat,
      (⟨((exact_state 2 1 k).x : ℝ), ((exact_state 2 1 k).y : ℝ)⟩ : ℂ) =
        (fun z : ℂ => z ^ 2 + ⟨((2 : ℚ) : ℝ), ((1 : ℚ) : ℝ)⟩)^[k] 0 ∧
      (exact_state 2 1 k).x = (orbit 2 1 k).1 ∧
      (exact_state 2 1 k).y = (orbit 2 1 k).2 ∧
      (exact_state 2 1 k).x2 = (exact_state 2 1 k).x * (exact_state 2 1 k).x ∧
      (exact_state 2 1 k).y2 = (exact_state 2 1 k).y * (exact_state 2 1 k).y ∧
      ((norm_sq (orbit 2 1 k) : ℚ) : ℝ) =
        Complex.normSq ((fun z : ℂ => z ^ 2 + ⟨((2 : ℚ) : ℝ), ((1 : ℚ) : ℝ)⟩)^[k] 0) ∧
      ((k : Int) ≤ 3 → (exact_state 2 1 k).iter = (k : Int))) ∧
    ∃ n : Nat,
      escape_loop exactOps (2 : ℚ) (1 : ℚ) 3 (3 : Int).toNat (loop_init exactOps) =
        some (exact_state 2 1 n) ∧
      escape_time exactOps (2 : ℚ) (1 : ℚ) 3 = some (n : Int) ∧
      (4 < norm_sq (orbit 2 1 n) ∨ (n : Int) = 3) ∧
      ∀ j : Nat, j < n → ¬ (4 < norm_sq (orbit 2 1 j) ∨ (j : Int) = 3) :=
  escape_time_is_first_escape 2 1 3 (by decide) (by decide)

/-- C16: in exact arithmetic, whenever the test of line 136 holds in the state
after `k` passes (so that a further pass is executed, from a state with
`x2 + y2 <= 4`), the state after that pass has `|x| <= 4 + |x0|` and
`|y| <= 4 + |y0|`, hence `x2 <= (4 + |x0|)²` and `y2 <= (4 + |y0|)²`. -/
theorem orbit_values_bounded (x0 y0 : ℚ) (max_iter : Int) (k : Nat)
    (hexec : loop_cond exactOps max_iter (loop_iterate exactOps x0 y0 k) = true) :
    (exact_state x0 y0 k).x2 + (exact_state x0 y0 k).y2 ≤ 4 ∧
    |(exact_state x0 y0 (k + 1)).x| ≤ 4 + |x0| ∧
    |(exact_state x0 y0 (k + 1)).y| ≤ 4 + |y0| ∧
    (exact_state x0 y0 (k + 1)).x2 ≤ (4 + |x0|) ^ 2 ∧
    (exact_state x0 y0 (k + 1)).y2 ≤ (4 + |y0|) ^ 2 := by
  rw [loop_cond_exact] at hexec
  have hle : (exact_state x0 y0 k).x2 + (exact_state x0 y0 k).y2 ≤ 4 := by
    have := (Bool.and_eq_true _ _).mp hexec
    exact of_decide_eq_true this.1
  obtain ⟨_, _, hx2, hy2⟩ := exact_state_orbit x0 y0 k
  obtain ⟨_, _, hx2n, hy2n⟩ := exact_state_orbit x0 y0 (k + 1)
  have hxn : (exact_state x0 y0 (k + 1)).x =
      (exact_state x0 y0 k).x2 - (exact_state x0 y0 k).y2 + x0 := by
    rw [exact_state_succ]
  have hyn : (exact_state x0 y0 (k + 1)).y =
      2 * (exact_state x0 y0 k).x * (exact_state x0 y0 k).y + y0 := by
    rw [exact_state_succ]
  have hxx : 0 ≤ (exact_state x0 y0 k).x * (exact_state x0 y0 k).x := mul_self_nonneg _
  have hyy : 0 ≤ (exact_state x0 y0 k).y * (exact_state x0 y0 k).y := mul_self_nonneg _
  have hm : 0 ≤ ((exact_state x0 y0 k).x - (exact_state x0 y0 k).y) *
      ((exact_state x0 y0 k).x - (exact_state x0 y0 k).y) := mul_self_nonneg _
  have hp : 0 ≤ ((exact_state x0 y0 k).x + (exact_state x0 y0 k).y) *
      ((exact_state x0 y0 k).x + (exact_state x0 y0 k).y) := mul_self_nonneg _
  have hax : |(exact_state x0 y0 (k + 1)).x| ≤ 4 + |x0| := by
    rw [hxn, abs_le]
    have a1 := le_abs_self x0
    have a2 := neg_abs_le x0
    constructor <;> nlinarith
  have hay : |(exact_state x0 y0 (k + 1)).y| ≤ 4 + |y0| := by
    rw [hyn, abs_le]
    have a1 := le_abs_self y0
    have a2 := neg_abs_le y0
    constructor <;> nlinarith
  refine ⟨hle, hax, hay, ?_, ?_⟩
  · rw [hx2n, ← abs_mul_abs_self, pow_two]
    exact mul_le_mul hax hax (abs_nonneg _) (by positivity)
  · rw [hy2n, ← abs_mul_abs_self, pow_two]
    exact mul_le_mul hay hay (abs_nonneg _) (by positivity)

theorem orbit_values_bounded_witness :
    (exact_state 2 1 0).x2 + (exact_state 2 1 0).y2 ≤ 4 ∧
    |(exact_state 2 1 (0 + 1)).x| ≤ 4 + |(2 : ℚ)| ∧
    |(exact_state 2 1 (0 + 1)).y| ≤ 4 + |(1 : ℚ)| ∧
    (exact_state 2 1 (0 + 1)).x2 ≤ (4 + |(2 : ℚ)|) ^ 2 ∧
    (exact_state 2 1 (0 + 1)).y2 ≤ (4 + |(1 : ℚ)|) ^ 2 :=
  orbit_values_bounded 2 1 3 0
    (by simp [loop_cond, loop_iterate, loop_init, exactOps])

end Mandelbrot
